import Mathlib

/-!
Formal model of the PrediFi prediction-market contract
(`src/contract/contracts/predifi-contract/src/lib.rs`).

The contract is shallowly embedded: contract storage becomes an explicit
`Storage` record, the ledger environment (timestamp, external access-control
collaborator) becomes an `Env` record, and every public entry point becomes a
pure Lean function from `Storage` to a result paired with the new `Storage`.
Soroban semantics modelled here:

* Every operation is atomic and all-or-nothing: a Rust `panic!`/`assert!` or a
  returned `Err` aborts the invocation and discards all of its writes, so each
  embedded operation returns the *original* storage on any failure.
* `require_auth()` is host-side authorization of the invoker; an invocation
  that fails it never reaches the contract code, so it is a no-op here (the
  step relation only ranges over calls the host admitted).
* Machine integers: `u64`/`u32` values are `Nat` (with `saturating_add` on
  `u64` modelled as a min with `2^64 - 1`); `i128` values are `Int`, with the
  source's `checked_mul`/`checked_div`/`checked_add` modelled as explicit
  range checks against the i128 bounds.
* The token contract is the external asset-transfer collaborator; `transfer`
  is modelled as pure double-entry bookkeeping on an `Int`-valued balance map.
* Rust panic messages are modelled by the enumeration `PanicMsg`, one
  constructor per distinct message in the source.
-/

namespace Predifi

/-- Addresses (users, tokens, contracts) are modelled as natural numbers. -/
abbrev Addr := Nat

/-- The contract's own address (`env.current_contract_address()`). -/
def contractAddr : Addr := 0

/-- Source: `MIN_POOL_DURATION` (1 hour, in seconds). -/
def MIN_POOL_DURATION : Nat := 3600

/-- Source: `MAX_OPTIONS_COUNT`. -/
def MAX_OPTIONS_COUNT : Nat := 100

/-- Source: `MAX_INITIAL_LIQUIDITY` (100M tokens at 7 decimals). -/
def MAX_INITIAL_LIQUIDITY : Int := 100000000000000

/-- Smallest `i128` value. -/
def i128Min : Int := -(2 ^ 127)

/-- Largest `i128` value. -/
def i128Max : Int := 2 ^ 127 - 1

/-- Largest `u64` value, the saturation point of `u64::saturating_add`. -/
def u64Max : Nat := 2 ^ 64 - 1

/-- Source: `enum PredifiError`. -/
inductive PredifiError where
  | Unauthorized
  | PoolNotResolved
  | InvalidPoolState
  | AlreadyClaimed
  | PoolCanceled
  | ResolutionDelayNotMet
  | TokenNotWhitelisted
deriving DecidableEq, Repr

/-- Source: `enum MarketState`. -/
inductive MarketState where
  | Active
  | Resolved
  | Canceled
deriving DecidableEq, Repr

/-- One constructor per distinct Rust `panic!`/`assert!`/`expect` message in
the source, so that aborts are distinguishable in the model. -/
inductive PanicMsg where
  /-- Rust message: Contract is paused. -/
  | contractPaused
  /-- Rust message: Unauthorized: missing required role. -/
  | missingRole
  /-- Rust message: Config not set. -/
  | configNotSet
  /-- Rust message: Pool not found. -/
  | poolNotFound
  /-- Rust message: Pool already resolved. -/
  | poolAlreadyResolved
  /-- Rust message: Cannot resolve a canceled pool. -/
  | resolveCanceled
  /-- Rust message: Pool already canceled. -/
  | poolAlreadyCanceled
  /-- Rust message: Invalid state transition. -/
  | invalidTransition
  /-- Rust message: outcome exceeds options_count or invalid state transition. -/
  | outcomeOrTransition
  /-- Rust message: fee_bps exceeds 10000. -/
  | feeTooHigh
  /-- Rust message: end_time must be in the future. -/
  | endTimeNotFuture
  /-- Rust message: end_time must be at least 1 hour in the future. -/
  | endTimeTooSoon
  /-- Rust message: options_count must be at least 2. -/
  | tooFewOptions
  /-- Rust message: options_count exceeds maximum allowed value. -/
  | tooManyOptions
  /-- Rust message: initial_liquidity must be non-negative. -/
  | negativeLiquidity
  /-- Rust message: initial_liquidity exceeds maximum allowed value. -/
  | liquidityTooLarge
  /-- Rust message: description exceeds 256 bytes. -/
  | descriptionTooLong
  /-- Rust message: metadata_url exceeds 512 bytes. -/
  | metadataTooLong
  /-- Rust message: amount must be positive. -/
  | amountNotPositive
  /-- Rust message: Cannot place prediction on canceled pool. -/
  | predictOnCanceled
  /-- Rust message: Pool is not active. -/
  | poolNotActive
  /-- Rust message: Pool has ended. -/
  | poolEnded
  /-- Rust message: outcome exceeds options_count. -/
  | outcomeOutOfRange
  /-- Rust message: overflow (in `place_prediction`'s `checked_add`). -/
  | stakeOverflow
  /-- Rust message: overflow in winnings calculation. -/
  | winningsOverflow
  /-- Rust message: division by zero. -/
  | divisionByZero
  /-- Rust message: Winnings exceed total stake. -/
  | winningsExceedTotal
  /-- Rust message: index not found (pagination `expect`). -/
  | indexNotFound
  /-- Rust message: prediction not found (pagination `expect`). -/
  | predictionNotFound
  /-- Rust message: pool not found (pagination `expect`). -/
  | paginationPoolNotFound
deriving DecidableEq, Repr

/-- Result of invoking an entry point: a normal return value, a typed
`PredifiError`, or a Rust panic (both of the latter abort the invocation). -/
inductive Res (α : Type) where
  | ok : α → Res α
  | err : PredifiError → Res α
  | panic : PanicMsg → Res α
deriving DecidableEq, Repr

/-- Source: `struct Pool`. -/
structure Pool where
  end_time : Nat
  resolved : Bool
  canceled : Bool
  state : MarketState
  outcome : Nat
  token : Addr
  total_stake : Int
  description : String
  metadata_url : String
  options_count : Nat
  initial_liquidity : Int
  creator : Addr
  category : Nat
deriving DecidableEq, Repr

/-- Source: `struct Config`. -/
structure Config where
  fee_bps : Nat
  treasury : Addr
  access_control : Addr
  resolution_delay : Nat
deriving DecidableEq, Repr

/-- Source: `struct Prediction`. -/
structure Prediction where
  amount : Int
  outcome : Nat
deriving DecidableEq, Repr

/-- Source: `struct UserPredictionDetail`. -/
structure UserPredictionDetail where
  pool_id : Nat
  amount : Int
  user_outcome : Nat
  pool_end_time : Nat
  pool_state : MarketState
  pool_outcome : Nat
deriving DecidableEq, Repr

/-- Durable effects of `claim_winnings`, recorded in execution order so that
the relative order of the claim-receipt write and token transfers is
observable in the model. -/
inductive Effect where
  /-- The `HasClaimed(user, pool)` receipt write. -/
  | setClaimed : Addr → Nat → Effect
  /-- A token transfer: token, from, to, amount. -/
  | transferE : Addr → Addr → Addr → Int → Effect
deriving DecidableEq, Repr

/-- The contract's durable storage, one field per `DataKey` variant (plus the
external token balances used by the asset-transfer collaborator). `Option`
distinguishes an absent key from a stored value, mirroring
`storage().get(...)`. -/
structure Storage where
  /-- `DataKey::Config` (instance scope). -/
  config : Option Config
  /-- `DataKey::PoolIdCounter` (instance scope, read with `unwrap_or(0)`). -/
  poolIdCounter : Option Nat
  /-- `DataKey::Pool(pool_id)`. -/
  pools : Nat → Option Pool
  /-- `DataKey::Prediction(user, pool_id)`. -/
  predictions : Addr → Nat → Option Prediction
  /-- `DataKey::HasClaimed(user, pool_id)` (presence-checked with `has`). -/
  hasClaimed : Addr → Nat → Option Bool
  /-- `DataKey::OutcomeStake(pool_id, outcome)`: per-index scalar stakes. -/
  outcomeStakeI : Nat → Nat → Option Int
  /-- `DataKey::OutcomeStakes(pool_id)`: batched stake vector. -/
  outcomeStakesB : Nat → Option (List Int)
  /-- `DataKey::UserPredictionCount(user)` (read with `unwrap_or(0)`). -/
  userPredCount : Addr → Option Nat
  /-- `DataKey::UserPredictionIndex(user, i)`. -/
  userPredIndex : Addr → Nat → Option Nat
  /-- `DataKey::Paused` (read with `unwrap_or(false)`). -/
  paused : Option Bool
  /-- `DataKey::CategoryPoolCount(category)` (read with `unwrap_or(0)`). -/
  categoryCount : Nat → Option Nat
  /-- `DataKey::CategoryPoolIndex(category, i)`. -/
  categoryIndex : Nat → Nat → Option Nat
  /-- `DataKey::TokenWhitelist(token)` (read with `unwrap_or(false)`). -/
  tokenWhitelist : Addr → Option Bool
  /-- External token-contract balances: token address → holder → balance. -/
  balances : Addr → Addr → Int

/-- The ledger environment plus the external access-control collaborator:
`hasRole ac user role` models `invoke_contract(ac, "has_role", [user, role])`. -/
structure Env where
  timestamp : Nat
  hasRole : Addr → Addr → Nat → Bool

/-- Point update of a one-key storage map. -/
def updMap {β : Type} (f : Nat → β) (k : Nat) (v : β) : Nat → β :=
  fun k' => if k' = k then v else f k'

/-- Point update of a two-key storage map. -/
def updMap2 {β : Type} (f : Nat → Nat → β) (a b : Nat) (v : β) : Nat → Nat → β :=
  fun a' b' => if a' = a ∧ b' = b then v else f a' b'

/-- The external token collaborator's `transfer(from, to, amount)`, as pure
double-entry bookkeeping on the balance map. -/
def transfer (s : Storage) (token src dst : Addr) (amount : Int) : Storage :=
  if src = dst then s
  else
    { s with
      balances := fun t a =>
        if t = token ∧ a = src then s.balances t a - amount
        else if t = token ∧ a = dst then s.balances t a + amount
        else s.balances t a }

/-- Source: `u64::saturating_add` used for `end_time + resolution_delay`. -/
def satAddU64 (a b : Nat) : Nat := min (a + b) u64Max

/-- Source: `i128::checked_mul` — `none` models the overflow case. -/
def checked_mul (a b : Int) : Option Int :=
  if i128Min ≤ a * b ∧ a * b ≤ i128Max then some (a * b) else none

/-- Source: `i128::checked_div` — `none` on division by zero or on the
`i128::MIN / -1` overflow; otherwise Rust's truncating division. -/
def checked_div (a b : Int) : Option Int :=
  if b = 0 then none
  else if a = i128Min ∧ b = -1 then none
  else some (a.tdiv b)

/-- Source: `is_valid_fee_bps` (pure helper). -/
def is_valid_fee_bps (fee_bps : Nat) : Bool := fee_bps ≤ 10000

/-- Source: `is_valid_state_transition` (pure helper). -/
def is_valid_state_transition : MarketState → MarketState → Bool
  | .Active, .Resolved => true
  | .Active, .Canceled => true
  | _, _ => false

/-- Source: `calculate_winnings` (pure helper). A `panic` result models the
`expect` on `checked_mul` / `checked_div`. -/
def calculate_winnings (user_stake winning_stake total_stake : Int) : Res Int :=
  if winning_stake = 0 then .ok 0
  else
    match checked_mul user_stake total_stake with
    | none => .panic .winningsOverflow
    | some product =>
      match checked_div product winning_stake with
      | none => .panic .divisionByZero
      | some q => .ok q

/-- Source: the fallback arm of `get_outcome_stakes` — reconstruct the stake
vector from the per-index `OutcomeStake` keys (absent keys read as 0). -/
def fallbackStakes (s : Storage) (pool_id options_count : Nat) : List Int :=
  (List.range options_count).map (fun i => (s.outcomeStakeI pool_id i).getD 0)

/-- Source: `get_outcome_stakes` — batched vector if present, else the
per-index reconstruction. -/
def get_outcome_stakes (s : Storage) (pool_id options_count : Nat) : List Int :=
  match s.outcomeStakesB pool_id with
  | some v => v
  | none => fallbackStakes s pool_id options_count

/-- Sum of the per-outcome cumulative stakes of a pool, as read back by
`get_outcome_stakes`. -/
def sumStakes (s : Storage) (pool_id options_count : Nat) : Int :=
  (get_outcome_stakes s pool_id options_count).sum

/-- Source: `update_outcome_stake` — adds `amount` to the stake at index
`outcome` and writes both the batched vector and the per-index key. Call
sites guarantee `outcome < options_count`, so the soroban `Vec::set`
out-of-bounds panic cannot fire; `List.set` is a no-op out of bounds. -/
def update_outcome_stake (s : Storage) (pool_id outcome : Nat) (amount : Int)
    (options_count : Nat) : Storage :=
  let stakes := get_outcome_stakes s pool_id options_count
  let current := stakes.getD outcome 0
  let stakes' := stakes.set outcome (current + amount)
  { s with
    outcomeStakesB := updMap s.outcomeStakesB pool_id (some stakes')
    outcomeStakeI := updMap2 s.outcomeStakeI pool_id outcome (some (current + amount)) }

/-- Source: `init` — idempotent; stores the config (with no validation of
`fee_bps`) and zeroes the pool counter only when no config exists yet. -/
def init (access_control treasury : Addr) (fee_bps resolution_delay : Nat)
    (s : Storage) : Storage :=
  match s.config with
  | some _ => s
  | none =>
    { s with
      config := some ⟨fee_bps, treasury, access_control, resolution_delay⟩
      poolIdCounter := some 0 }

/-- Source: `pause` — Admin (role 0) sets the pause flag. Not itself gated by
`require_not_paused`. -/
def pause (e : Env) (admin : Addr) (s : Storage) : Res Unit × Storage :=
  match s.config with
  | none => (.panic .configNotSet, s)
  | some cfg =>
    if e.hasRole cfg.access_control admin 0 then
      (.ok (), { s with paused := some true })
    else (.panic .missingRole, s)

/-- Source: `unpause` — Admin (role 0) clears the pause flag. Not itself
gated by `require_not_paused`. -/
def unpause (e : Env) (admin : Addr) (s : Storage) : Res Unit × Storage :=
  match s.config with
  | none => (.panic .configNotSet, s)
  | some cfg =>
    if e.hasRole cfg.access_control admin 0 then
      (.ok (), { s with paused := some false })
    else (.panic .missingRole, s)

/-- Source: `set_fee_bps` — paused gate, Admin role, then the
`is_valid_fee_bps` assertion before storing. -/
def set_fee_bps (e : Env) (admin : Addr) (fee_bps : Nat) (s : Storage) :
    Res Unit × Storage :=
  if s.paused.getD false then (.panic .contractPaused, s)
  else
    match s.config with
    | none => (.panic .configNotSet, s)
    | some cfg =>
      if ¬ e.hasRole cfg.access_control admin 0 then (.err .Unauthorized, s)
      else if ¬ is_valid_fee_bps fee_bps then (.panic .feeTooHigh, s)
      else (.ok (), { s with config := some { cfg with fee_bps := fee_bps } })

/-- Source: `set_treasury`. -/
def set_treasury (e : Env) (admin treasury : Addr) (s : Storage) :
    Res Unit × Storage :=
  if s.paused.getD false then (.panic .contractPaused, s)
  else
    match s.config with
    | none => (.panic .configNotSet, s)
    | some cfg =>
      if ¬ e.hasRole cfg.access_control admin 0 then (.err .Unauthorized, s)
      else (.ok (), { s with config := some { cfg with treasury := treasury } })

/-- Source: `set_resolution_delay`. -/
def set_resolution_delay (e : Env) (admin : Addr) (delay : Nat) (s : Storage) :
    Res Unit × Storage :=
  if s.paused.getD false then (.panic .contractPaused, s)
  else
    match s.config with
    | none => (.panic .configNotSet, s)
    | some cfg =>
      if ¬ e.hasRole cfg.access_control admin 0 then (.err .Unauthorized, s)
      else (.ok (), { s with config := some { cfg with resolution_delay := delay } })

/-- Source: `add_token_to_whitelist`. -/
def add_token_to_whitelist (e : Env) (admin token : Addr) (s : Storage) :
    Res Unit × Storage :=
  if s.paused.getD false then (.panic .contractPaused, s)
  else
    match s.config with
    | none => (.panic .configNotSet, s)
    | some cfg =>
      if ¬ e.hasRole cfg.access_control admin 0 then (.err .Unauthorized, s)
      else (.ok (), { s with tokenWhitelist := updMap s.tokenWhitelist token (some true) })

/-- Source: `remove_token_from_whitelist` (removes the key). -/
def remove_token_from_whitelist (e : Env) (admin token : Addr) (s : Storage) :
    Res Unit × Storage :=
  if s.paused.getD false then (.panic .contractPaused, s)
  else
    match s.config with
    | none => (.panic .configNotSet, s)
    | some cfg =>
      if ¬ e.hasRole cfg.access_control admin 0 then (.err .Unauthorized, s)
      else (.ok (), { s with tokenWhitelist := updMap s.tokenWhitelist token none })

/-- Source: `is_token_allowed` (read-only query). -/
def is_token_allowed (token : Addr) (s : Storage) : Bool :=
  (s.tokenWhitelist token).getD false

/-- The success branch of `create_pool`: persist the new pool, debit the
creator's initial liquidity if positive, append to the category index, and
bump the pool counter. -/
def create_apply (creator end_time : Nat) (token options_count : Nat)
    (description metadata_url : String) (initial_liquidity : Int) (category : Nat)
    (s : Storage) : Storage :=
  let pool_id := (s.poolIdCounter).getD 0
  let pool : Pool :=
    { end_time := end_time, resolved := false, canceled := false
      state := .Active, outcome := 0, token := token
      total_stake := initial_liquidity
      description := description, metadata_url := metadata_url
      options_count := options_count, initial_liquidity := initial_liquidity
      creator := creator, category := category }
  let s1 := { s with pools := updMap s.pools pool_id (some pool) }
  let s2 :=
    if initial_liquidity > 0 then transfer s1 token creator contractAddr initial_liquidity
    else s1
  let ccount := (s2.categoryCount category).getD 0
  let s3 :=
    { s2 with
      categoryIndex := updMap2 s2.categoryIndex category ccount (some pool_id)
      categoryCount := updMap s2.categoryCount category (some (ccount + 1))
      poolIdCounter := some (pool_id + 1) }
  s3

/-- Source: `create_pool` — validation chain in source order, then the
success branch `create_apply`. Returns the new pool id. -/
def create_pool (e : Env) (creator end_time : Nat) (token options_count : Nat)
    (description metadata_url : String) (initial_liquidity : Int) (category : Nat)
    (s : Storage) : Res Nat × Storage :=
  if s.paused.getD false then (.panic .contractPaused, s)
  else if ¬ (s.tokenWhitelist token).getD false then (.err .TokenNotWhitelisted, s)
  else if ¬ (end_time > e.timestamp) then (.panic .endTimeNotFuture, s)
  else if ¬ (end_time ≥ e.timestamp + MIN_POOL_DURATION) then (.panic .endTimeTooSoon, s)
  else if ¬ (options_count ≥ 2) then (.panic .tooFewOptions, s)
  else if ¬ (options_count ≤ MAX_OPTIONS_COUNT) then (.panic .tooManyOptions, s)
  else if ¬ (initial_liquidity ≥ 0) then (.panic .negativeLiquidity, s)
  else if ¬ (initial_liquidity ≤ MAX_INITIAL_LIQUIDITY) then (.panic .liquidityTooLarge, s)
  else if ¬ (description.length ≤ 256) then (.panic .descriptionTooLong, s)
  else if ¬ (metadata_url.length ≤ 512) then (.panic .metadataTooLong, s)
  else
    (.ok ((s.poolIdCounter).getD 0),
      create_apply creator end_time token options_count description metadata_url
        initial_liquidity category s)

/-- The success branch of `resolve_pool` / `oracle_resolve`: set the state,
the resolved flag and the winning outcome. -/
def resolve_apply (pool_id outcome : Nat) (p : Pool) (s : Storage) : Storage :=
  { s with
    pools := updMap s.pools pool_id
      (some { p with state := .Resolved, resolved := true, outcome := outcome }) }

/-- Source: `resolve_pool` — paused gate, Operator role (1), pool-state and
timing checks in source order, then `resolve_apply`. -/
def resolve_pool (e : Env) (operator pool_id outcome : Nat) (s : Storage) :
    Res Unit × Storage :=
  if s.paused.getD false then (.panic .contractPaused, s)
  else
    match s.config with
    | none => (.panic .configNotSet, s)
    | some cfg =>
      if ¬ e.hasRole cfg.access_control operator 1 then (.err .Unauthorized, s)
      else
        match s.pools pool_id with
        | none => (.panic .poolNotFound, s)
        | some p =>
          if p.resolved then (.panic .poolAlreadyResolved, s)
          else if p.canceled then (.panic .resolveCanceled, s)
          else if p.state ≠ .Active then (.err .InvalidPoolState, s)
          else if e.timestamp < satAddU64 p.end_time cfg.resolution_delay then
            (.err .ResolutionDelayNotMet, s)
          else if ¬ (outcome < p.options_count ∧
              is_valid_state_transition p.state .Resolved) then
            (.panic .outcomeOrTransition, s)
          else (.ok (), resolve_apply pool_id outcome p s)

/-- Source: `oracle_resolve` — identical to `resolve_pool` except the caller
must hold the Oracle role (3). -/
def oracle_resolve (e : Env) (oracle pool_id outcome : Nat) (s : Storage) :
    Res Unit × Storage :=
  if s.paused.getD false then (.panic .contractPaused, s)
  else
    match s.config with
    | none => (.panic .configNotSet, s)
    | some cfg =>
      if ¬ e.hasRole cfg.access_control oracle 3 then (.err .Unauthorized, s)
      else
        match s.pools pool_id with
        | none => (.panic .poolNotFound, s)
        | some p =>
          if p.resolved then (.panic .poolAlreadyResolved, s)
          else if p.canceled then (.panic .resolveCanceled, s)
          else if p.state ≠ .Active then (.err .InvalidPoolState, s)
          else if e.timestamp < satAddU64 p.end_time cfg.resolution_delay then
            (.err .ResolutionDelayNotMet, s)
          else if ¬ (outcome < p.options_count ∧
              is_valid_state_transition p.state .Resolved) then
            (.panic .outcomeOrTransition, s)
          else (.ok (), resolve_apply pool_id outcome p s)

/-- Source: `mark_pool_ready` — read-only heartbeat, not gated by the pause
flag and requiring no role. -/
def mark_pool_ready (e : Env) (pool_id : Nat) (s : Storage) : Res Unit × Storage :=
  match s.pools pool_id with
  | none => (.panic .poolNotFound, s)
  | some p =>
    if p.state ≠ .Active then (.err .InvalidPoolState, s)
    else
      match s.config with
      | none => (.panic .configNotSet, s)
      | some cfg =>
        if e.timestamp ≥ satAddU64 p.end_time cfg.resolution_delay then (.ok (), s)
        else (.err .ResolutionDelayNotMet, s)

/-- The success branch of `cancel_pool`: set the state and the canceled
flag. -/
def cancel_apply (pool_id : Nat) (p : Pool) (s : Storage) : Storage :=
  { s with
    pools := updMap s.pools pool_id
      (some { p with state := .Canceled, canceled := true }) }

/-- Source: `cancel_pool` — paused gate, Operator role (1), then the
resolved/canceled/transition checks in source order. -/
def cancel_pool (e : Env) (operator pool_id : Nat) (s : Storage) :
    Res Unit × Storage :=
  if s.paused.getD false then (.panic .contractPaused, s)
  else
    match s.config with
    | none => (.panic .configNotSet, s)
    | some cfg =>
      if ¬ e.hasRole cfg.access_control operator 1 then (.err .Unauthorized, s)
      else
        match s.pools pool_id with
        | none => (.panic .poolNotFound, s)
        | some p =>
          if p.resolved then (.err .PoolNotResolved, s)
          else if p.canceled then (.panic .poolAlreadyCanceled, s)
          else if ¬ is_valid_state_transition p.state .Canceled then
            (.panic .invalidTransition, s)
          else (.ok (), cancel_apply pool_id p s)

/-- The success branch of `place_prediction`: debit the user, overwrite the
`Prediction(user, pool)` record, add to the pool total and the outcome
stake, and append to the user-prediction index. -/
def place_apply (user pool_id : Nat) (amount : Int) (outcome : Nat) (p : Pool)
    (s : Storage) : Storage :=
  let s1 := transfer s p.token user contractAddr amount
  let s2 :=
    { s1 with predictions := updMap2 s1.predictions user pool_id (some ⟨amount, outcome⟩) }
  let s3 :=
    { s2 with pools :=
        updMap s2.pools pool_id (some { p with total_stake := p.total_stake + amount }) }
  let s4 := update_outcome_stake s3 pool_id outcome amount p.options_count
  let count := (s4.userPredCount user).getD 0
  { s4 with
    userPredIndex := updMap2 s4.userPredIndex user count (some pool_id)
    userPredCount := updMap s4.userPredCount user (some (count + 1)) }

/-- Source: `place_prediction` — validation chain in source order (the
overflow check models the `checked_add` on `total_stake`; a mid-operation
panic discards all writes, so performing the check up front is
state-equivalent), then `place_apply`. -/
def place_prediction (e : Env) (user pool_id : Nat) (amount : Int) (outcome : Nat)
    (s : Storage) : Res Unit × Storage :=
  if s.paused.getD false then (.panic .contractPaused, s)
  else if ¬ (amount > 0) then (.panic .amountNotPositive, s)
  else
    match s.pools pool_id with
    | none => (.panic .poolNotFound, s)
    | some p =>
      if p.resolved then (.panic .poolAlreadyResolved, s)
      else if p.canceled then (.panic .predictOnCanceled, s)
      else if p.state ≠ .Active then (.panic .poolNotActive, s)
      else if ¬ (e.timestamp < p.end_time) then (.panic .poolEnded, s)
      else if ¬ (outcome < p.options_count) then (.panic .outcomeOutOfRange, s)
      else if ¬ (i128Min ≤ p.total_stake + amount ∧ p.total_stake + amount ≤ i128Max) then
        (.panic .stakeOverflow, s)
      else (.ok (), place_apply user pool_id amount outcome p s)

/-- The claim-receipt write of `claim_winnings`: mark `(user, pool)` as
claimed. In the source this is the first durable write of a claim, performed
before any transfer. -/
def claim_mark (user pool_id : Nat) (s : Storage) : Storage :=
  { s with hasClaimed := updMap2 s.hasClaimed user pool_id (some true) }

/-- Source: `claim_winnings` — returns the amount paid out, the new storage,
and the ordered list of durable effects (receipt write, transfers) of a
successful invocation. -/
def claim_winnings (e : Env) (user pool_id : Nat) (s : Storage) :
    Res Int × Storage × List Effect :=
  if s.paused.getD false then (.panic .contractPaused, s, [])
  else
    match s.pools pool_id with
    | none => (.panic .poolNotFound, s, [])
    | some p =>
      if p.state = .Active then (.err .PoolNotResolved, s, [])
      else if (s.hasClaimed user pool_id).isSome then (.err .AlreadyClaimed, s, [])
      else
        -- Mark as claimed immediately, before any transfer (INV-3).
        match (claim_mark user pool_id s).predictions user pool_id with
        | none => (.ok 0, claim_mark user pool_id s, [.setClaimed user pool_id])
        | some pred =>
          if p.state = .Canceled then
            (.ok pred.amount,
              transfer (claim_mark user pool_id s) p.token contractAddr user pred.amount,
              [.setClaimed user pool_id, .transferE p.token contractAddr user pred.amount])
          else if pred.outcome ≠ p.outcome then
            (.ok 0, claim_mark user pool_id s, [.setClaimed user pool_id])
          else if (get_outcome_stakes s pool_id p.options_count).getD p.outcome 0 = 0 then
            (.ok 0, claim_mark user pool_id s, [.setClaimed user pool_id])
          else
            match calculate_winnings pred.amount
                ((get_outcome_stakes s pool_id p.options_count).getD p.outcome 0)
                p.total_stake with
            | .ok winnings =>
              if ¬ (winnings ≤ p.total_stake) then (.panic .winningsExceedTotal, s, [])
              else
                (.ok winnings,
                  transfer (claim_mark user pool_id s) p.token contractAddr user winnings,
                  [.setClaimed user pool_id, .transferE p.token contractAddr user winnings])
            | .err er => (.err er, s, [])
            | .panic m => (.panic m, s, [])

/-- Option-valued traversal used to model pagination loops whose storage
reads abort with `expect` when an index entry is missing. -/
def mapOptList {α β : Type} (g : α → Option β) : List α → Option (List β)
  | [] => some []
  | x :: xs =>
    match g x, mapOptList g xs with
    | some y, some ys => some (y :: ys)
    | _, _ => none

/-- One row of `get_user_predictions`: index slot → (pool id, detail). -/
def user_pred_row (s : Storage) (user : Addr) (i : Nat) : Option UserPredictionDetail := do
  let pool_id ← s.userPredIndex user i
  let pred ← s.predictions user pool_id
  let p ← s.pools pool_id
  pure ⟨pool_id, pred.amount, pred.outcome, p.end_time, p.state, p.outcome⟩

/-- Source: `get_user_predictions` — forward pagination from `offset` for up
to `limit` entries; empty when `offset ≥ count` or `limit == 0`. -/
def get_user_predictions (user : Addr) (offset limit : Nat) (s : Storage) :
    Res (List UserPredictionDetail) :=
  let count := (s.userPredCount user).getD 0
  if offset ≥ count ∨ limit = 0 then .ok []
  else
    let stop := min (offset + limit) count
    match mapOptList (user_pred_row s user) (List.range' offset (stop - offset)) with
    | some l => .ok l
    | none => .panic .indexNotFound

/-- Source: `get_pools_by_category` — backward (most-recent-first) pagination;
`Nat` subtraction is saturating exactly like the source's `saturating_sub`. -/
def get_pools_by_category (category : Nat) (offset limit : Nat) (s : Storage) :
    Res (List Nat) :=
  let count := (s.categoryCount category).getD 0
  if offset ≥ count ∨ limit = 0 then .ok []
  else
    let start_index := count - offset - 1
    let num_to_take := min limit (count - offset)
    match mapOptList (fun i => s.categoryIndex category (start_index - i))
        (List.range num_to_take) with
    | some l => .ok l
    | none => .panic .indexNotFound

/-- Source: `get_outcome_stake` (read-only query). -/
def get_outcome_stake (pool_id outcome : Nat) (s : Storage) : Int :=
  match s.pools pool_id with
  | none => 0
  | some p =>
    if outcome ≥ p.options_count then 0
    else (get_outcome_stakes s pool_id p.options_count).getD outcome 0

/-- Uninitialized contract storage over arbitrary pre-existing external token
balances: no config, no pools, no predictions, no receipts, no indices, no
whitelist, pause flag unset. -/
def initialStorage (bal : Addr → Addr → Int) : Storage :=
  { config := none
    poolIdCounter := none
    pools := fun _ => none
    predictions := fun _ _ => none
    hasClaimed := fun _ _ => none
    outcomeStakeI := fun _ _ => none
    outcomeStakesB := fun _ => none
    userPredCount := fun _ => none
    userPredIndex := fun _ _ => none
    paused := none
    categoryCount := fun _ => none
    categoryIndex := fun _ _ => none
    tokenWhitelist := fun _ => none
    balances := bal }

/-- One successful public invocation of the contract. Failed invocations
(typed errors and panics) leave the storage unchanged, so restricting the
step relation to successes loses no reachable states. -/
inductive Step : Storage → Storage → Prop where
  | initStep (ac tr fee delay : Nat) (s : Storage) :
      Step s (init ac tr fee delay s)
  | pauseStep (e : Env) (admin : Addr) (s s' : Storage)
      (h : pause e admin s = (.ok (), s')) : Step s s'
  | unpauseStep (e : Env) (admin : Addr) (s s' : Storage)
      (h : unpause e admin s = (.ok (), s')) : Step s s'
  | setFeeStep (e : Env) (admin fee : Nat) (s s' : Storage)
      (h : set_fee_bps e admin fee s = (.ok (), s')) : Step s s'
  | setTreasuryStep (e : Env) (admin treasury : Nat) (s s' : Storage)
      (h : set_treasury e admin treasury s = (.ok (), s')) : Step s s'
  | setDelayStep (e : Env) (admin delay : Nat) (s s' : Storage)
      (h : set_resolution_delay e admin delay s = (.ok (), s')) : Step s s'
  | addTokenStep (e : Env) (admin token : Nat) (s s' : Storage)
      (h : add_token_to_whitelist e admin token s = (.ok (), s')) : Step s s'
  | removeTokenStep (e : Env) (admin token : Nat) (s s' : Storage)
      (h : remove_token_from_whitelist e admin token s = (.ok (), s')) : Step s s'
  | createStep (e : Env) (creator end_time token options_count : Nat)
      (description metadata_url : String) (initial_liquidity : Int) (category : Nat)
      (s s' : Storage) (pool_id : Nat)
      (h : create_pool e creator end_time token options_count description metadata_url
        initial_liquidity category s = (.ok pool_id, s')) : Step s s'
  | resolveStep (e : Env) (operator pool_id outcome : Nat) (s s' : Storage)
      (h : resolve_pool e operator pool_id outcome s = (.ok (), s')) : Step s s'
  | oracleStep (e : Env) (oracle pool_id outcome : Nat) (s s' : Storage)
      (h : oracle_resolve e oracle pool_id outcome s = (.ok (), s')) : Step s s'
  | markReadyStep (e : Env) (pool_id : Nat) (s s' : Storage)
      (h : mark_pool_ready e pool_id s = (.ok (), s')) : Step s s'
  | cancelStep (e : Env) (operator pool_id : Nat) (s s' : Storage)
      (h : cancel_pool e operator pool_id s = (.ok (), s')) : Step s s'
  | placeStep (e : Env) (user pool_id : Nat) (amount : Int) (outcome : Nat)
      (s s' : Storage)
      (h : place_prediction e user pool_id amount outcome s = (.ok (), s')) : Step s s'
  | claimStep (e : Env) (user pool_id : Nat) (r : Int) (s s' : Storage)
      (tr : List Effect)
      (h : claim_winnings e user pool_id s = (.ok r, s', tr)) : Step s s'

/-- A storage state the deployed contract can actually be in: reachable from
an uninitialized deployment (with arbitrary external token balances) by
successful public invocations. -/
inductive Reachable : Storage → Prop where
  | base (bal : Addr → Addr → Int) : Reachable (initialStorage bal)
  | step {s s' : Storage} : Reachable s → Step s s' → Reachable s'

/-- The inductive protocol invariant:

1. `uninit`: while uninitialized (no config) nothing else has been written —
   no token is whitelisted, the counter is unset, and no pool or stake entry
   exists — because every write path either requires the config or a
   whitelisted token;
2. `fresh`: pool ids at or above the counter are untouched (freshness of the
   next id);
3. `stake`: for every stored pool, if the batched stake vector exists it has
   exactly `options_count` entries and
   `total_stake = initial_liquidity + Σ stakes`, and if it does not exist no
   per-index stake was ever written and `total_stake = initial_liquidity`. -/
structure Inv (s : Storage) : Prop where
  uninit : s.config = none →
    (∀ t, s.tokenWhitelist t ≠ some true) ∧ s.poolIdCounter = none ∧
    (∀ pid, s.pools pid = none) ∧ (∀ pid, s.outcomeStakesB pid = none) ∧
    (∀ pid i, s.outcomeStakeI pid i = none)
  fresh : ∀ pid, (s.poolIdCounter).getD 0 ≤ pid →
    s.pools pid = none ∧ s.outcomeStakesB pid = none ∧
    (∀ i, s.outcomeStakeI pid i = none)
  stake : ∀ pid p, s.pools pid = some p →
    (∀ v, s.outcomeStakesB pid = some v →
      v.length = p.options_count ∧ p.total_stake = p.initial_liquidity + v.sum) ∧
    (s.outcomeStakesB pid = none →
      p.total_stake = p.initial_liquidity ∧ ∀ i, s.outcomeStakeI pid i = none)

-- ── Basic lemmas about the storage primitives ──────────────────────────────

theorem updMap_same {β : Type} (f : Nat → β) (k : Nat) (v : β) : updMap f k v k = v := by
  simp [updMap]

theorem updMap_other {β : Type} (f : Nat → β) (k : Nat) (v : β) (k' : Nat)
    (h : k' ≠ k) : updMap f k v k' = f k' := by
  simp [updMap, h]

theorem updMap2_same {β : Type} (f : Nat → Nat → β) (a b : Nat) (v : β) :
    updMap2 f a b v a b = v := by
  simp [updMap2]

theorem updMap2_other {β : Type} (f : Nat → Nat → β) (a b : Nat) (v : β)
    (a' b' : Nat) (h : ¬(a' = a ∧ b' = b)) : updMap2 f a b v a' b' = f a' b' := by
  simp [updMap2, h]

theorem transfer_pools (s : Storage) (t a b : Addr) (x : Int) :
    (transfer s t a b x).pools = s.pools := by
  unfold transfer; split <;> rfl

theorem transfer_config (s : Storage) (t a b : Addr) (x : Int) :
    (transfer s t a b x).config = s.config := by
  unfold transfer; split <;> rfl

theorem transfer_counter (s : Storage) (t a b : Addr) (x : Int) :
    (transfer s t a b x).poolIdCounter = s.poolIdCounter := by
  unfold transfer; split <;> rfl

theorem transfer_hasClaimed (s : Storage) (t a b : Addr) (x : Int) :
    (transfer s t a b x).hasClaimed = s.hasClaimed := by
  unfold transfer; split <;> rfl

theorem transfer_predictions (s : Storage) (t a b : Addr) (x : Int) :
    (transfer s t a b x).predictions = s.predictions := by
  unfold transfer; split <;> rfl

theorem transfer_stakesB (s : Storage) (t a b : Addr) (x : Int) :
    (transfer s t a b x).outcomeStakesB = s.outcomeStakesB := by
  unfold transfer; split <;> rfl

theorem transfer_stakeI (s : Storage) (t a b : Addr) (x : Int) :
    (transfer s t a b x).outcomeStakeI = s.outcomeStakeI := by
  unfold transfer; split <;> rfl

theorem transfer_userPredCount (s : Storage) (t a b : Addr) (x : Int) :
    (transfer s t a b x).userPredCount = s.userPredCount := by
  unfold transfer; split <;> rfl

theorem transfer_userPredIndex (s : Storage) (t a b : Addr) (x : Int) :
    (transfer s t a b x).userPredIndex = s.userPredIndex := by
  unfold transfer; split <;> rfl

theorem transfer_categoryCount (s : Storage) (t a b : Addr) (x : Int) :
    (transfer s t a b x).categoryCount = s.categoryCount := by
  unfold transfer; split <;> rfl

theorem transfer_categoryIndex (s : Storage) (t a b : Addr) (x : Int) :
    (transfer s t a b x).categoryIndex = s.categoryIndex := by
  unfold transfer; split <;> rfl

theorem transfer_whitelist (s : Storage) (t a b : Addr) (x : Int) :
    (transfer s t a b x).tokenWhitelist = s.tokenWhitelist := by
  unfold transfer; split <;> rfl

theorem transfer_paused (s : Storage) (t a b : Addr) (x : Int) :
    (transfer s t a b x).paused = s.paused := by
  unfold transfer; split <;> rfl

/-- Adding `a` to the entry at an in-range index raises a list's sum by
exactly `a`. -/
theorem sum_set_getD_add (l : List Int) (i : Nat) (a : Int) (h : i < l.length) :
    (l.set i (l.getD i 0 + a)).sum = l.sum + a := by
  induction l generalizing i with
  | nil => simp at h
  | cons x xs ih =>
    cases i with
    | zero => simp [List.getD]; ring
    | succ n =>
      simp only [List.length_cons, Nat.succ_lt_succ_iff] at h
      simp only [List.set, List.getD_cons_succ, List.sum_cons, ih n h]
      ring

theorem fallbackStakes_length (s : Storage) (pid n : Nat) :
    (fallbackStakes s pid n).length = n := by
  simp [fallbackStakes]

theorem fallbackStakes_zero (s : Storage) (pid n : Nat)
    (h : ∀ i, s.outcomeStakeI pid i = none) :
    (fallbackStakes s pid n).sum = 0 := by
  simp [fallbackStakes]
  induction (List.range n) with
  | nil => simp
  | cons x xs ih => simp [h x, ih]

-- ── Success-inversion lemmas: what a successful invocation implies ─────────

theorem pause_ok {e : Env} {admin : Addr} {s s' : Storage}
    (h : pause e admin s = (.ok (), s')) :
    ∃ cfg, s.config = some cfg ∧ s' = { s with paused := some true } := by
  unfold pause at h
  split at h
  · simp at h
  · rename_i cfg hc
    split at h
    · exact ⟨cfg, hc, by simp_all⟩
    · simp at h

theorem unpause_ok {e : Env} {admin : Addr} {s s' : Storage}
    (h : unpause e admin s = (.ok (), s')) :
    ∃ cfg, s.config = some cfg ∧ s' = { s with paused := some false } := by
  unfold unpause at h
  split at h
  · simp at h
  · rename_i cfg hc
    split at h
    · exact ⟨cfg, hc, by simp_all⟩
    · simp at h

theorem set_fee_bps_ok {e : Env} {admin fee : Nat} {s s' : Storage}
    (h : set_fee_bps e admin fee s = (.ok (), s')) :
    ∃ cfg, s.config = some cfg ∧ is_valid_fee_bps fee = true ∧
      s' = { s with config := some { cfg with fee_bps := fee } } := by
  unfold set_fee_bps at h
  split at h
  · simp at h
  · split at h
    · simp at h
    · rename_i cfg hc
      split at h
      · simp at h
      · split at h
        · simp at h
        · rename_i hrole hfee
          exact ⟨cfg, hc, by simp_all, by simp_all⟩

theorem set_treasury_ok {e : Env} {admin treasury : Nat} {s s' : Storage}
    (h : set_treasury e admin treasury s = (.ok (), s')) :
    ∃ cfg, s.config = some cfg ∧
      s' = { s with config := some { cfg with treasury := treasury } } := by
  unfold set_treasury at h
  split at h
  · simp at h
  · split at h
    · simp at h
    · rename_i cfg hc
      split at h
      · simp at h
      · exact ⟨cfg, hc, by simp_all⟩

theorem set_resolution_delay_ok {e : Env} {admin delay : Nat} {s s' : Storage}
    (h : set_resolution_delay e admin delay s = (.ok (), s')) :
    ∃ cfg, s.config = some cfg ∧
      s' = { s with config := some { cfg with resolution_delay := delay } } := by
  unfold set_resolution_delay at h
  split at h
  · simp at h
  · split at h
    · simp at h
    · rename_i cfg hc
      split at h
      · simp at h
      · exact ⟨cfg, hc, by simp_all⟩

theorem add_token_ok {e : Env} {admin token : Nat} {s s' : Storage}
    (h : add_token_to_whitelist e admin token s = (.ok (), s')) :
    ∃ cfg, s.config = some cfg ∧
      s' = { s with tokenWhitelist := updMap s.tokenWhitelist token (some true) } := by
  unfold add_token_to_whitelist at h
  split at h
  · simp at h
  · split at h
    · simp at h
    · rename_i cfg hc
      split at h
      · simp at h
      · exact ⟨cfg, hc, by simp_all⟩

theorem remove_token_ok {e : Env} {admin token : Nat} {s s' : Storage}
    (h : remove_token_from_whitelist e admin token s = (.ok (), s')) :
    ∃ cfg, s.config = some cfg ∧
      s' = { s with tokenWhitelist := updMap s.tokenWhitelist token none } := by
  unfold remove_token_from_whitelist at h
  split at h
  · simp at h
  · split at h
    · simp at h
    · rename_i cfg hc
      split at h
      · simp at h
      · exact ⟨cfg, hc, by simp_all⟩

set_option maxHeartbeats 1600000 in
theorem create_pool_ok {e : Env} {creator end_time token options_count : Nat}
    {description metadata_url : String} {initial_liquidity : Int} {category : Nat}
    {s s' : Storage} {pool_id : Nat}
    (h : create_pool e creator end_time token options_count description metadata_url
      initial_liquidity category s = (.ok pool_id, s')) :
    s.paused.getD false = false ∧ (s.tokenWhitelist token).getD false = true ∧
    2 ≤ options_count ∧ 0 ≤ initial_liquidity ∧
    pool_id = (s.poolIdCounter).getD 0 ∧
    s' = create_apply creator end_time token options_count description metadata_url
      initial_liquidity category s := by
  unfold create_pool at h
  split at h
  · exact Res.noConfusion (congrArg Prod.fst h)
  · split at h
    · exact Res.noConfusion (congrArg Prod.fst h)
    · split at h
      · exact Res.noConfusion (congrArg Prod.fst h)
      · split at h
        · exact Res.noConfusion (congrArg Prod.fst h)
        · split at h
          · exact Res.noConfusion (congrArg Prod.fst h)
          · split at h
            · exact Res.noConfusion (congrArg Prod.fst h)
            · split at h
              · exact Res.noConfusion (congrArg Prod.fst h)
              · split at h
                · exact Res.noConfusion (congrArg Prod.fst h)
                · split at h
                  · exact Res.noConfusion (congrArg Prod.fst h)
                  · split at h
                    · exact Res.noConfusion (congrArg Prod.fst h)
                    · rename_i hpause hwl hfut hdur hmin hmax hnneg hcap hdesc hmeta
                      obtain ⟨hid, hs⟩ := Prod.mk.injEq .. ▸ h
                      refine ⟨by simp_all, by simp_all, by omega, by omega, ?_, hs.symm⟩
                      exact (Res.ok.injEq .. ▸ hid).symm

theorem resolve_pool_ok {e : Env} {operator pool_id outcome : Nat} {s s' : Storage}
    (h : resolve_pool e operator pool_id outcome s = (.ok (), s')) :
    s.paused.getD false = false ∧
    ∃ cfg p, s.config = some cfg ∧ s.pools pool_id = some p ∧
      p.resolved = false ∧ p.canceled = false ∧ p.state = .Active ∧
      satAddU64 p.end_time cfg.resolution_delay ≤ e.timestamp ∧
      outcome < p.options_count ∧
      s' = resolve_apply pool_id outcome p s := by
  unfold resolve_pool at h
  split at h
  · simp at h
  · rename_i hpause
    split at h
    · simp at h
    · rename_i cfg hc
      split at h
      · simp at h
      · split at h
        · simp at h
        · rename_i p hp
          split at h
          · simp at h
          · split at h
            · simp at h
            · split at h
              · simp at h
              · split at h
                · simp at h
                · split at h
                  · simp at h
                  · rename_i hres hcanc hact hdelay hrange
                    refine ⟨by simp_all, cfg, p, hc, hp, by simp_all, by simp_all,
                      by simp_all, by omega, ?_, by simp_all⟩
                    rcases not_not.mp hrange with ⟨h1, _⟩
                    exact h1

theorem oracle_resolve_ok {e : Env} {oracle pool_id outcome : Nat} {s s' : Storage}
    (h : oracle_resolve e oracle pool_id outcome s = (.ok (), s')) :
    s.paused.getD false = false ∧
    ∃ cfg p, s.config = some cfg ∧ s.pools pool_id = some p ∧
      p.resolved = false ∧ p.canceled = false ∧ p.state = .Active ∧
      satAddU64 p.end_time cfg.resolution_delay ≤ e.timestamp ∧
      outcome < p.options_count ∧
      s' = resolve_apply pool_id outcome p s := by
  unfold oracle_resolve at h
  split at h
  · simp at h
  · rename_i hpause
    split at h
    · simp at h
    · rename_i cfg hc
      split at h
      · simp at h
      · split at h
        · simp at h
        · rename_i p hp
          split at h
          · simp at h
          · split at h
            · simp at h
            · split at h
              · simp at h
              · split at h
                · simp at h
                · split at h
                  · simp at h
                  · rename_i hres hcanc hact hdelay hrange
                    refine ⟨by simp_all, cfg, p, hc, hp, by simp_all, by simp_all,
                      by simp_all, by omega, ?_, by simp_all⟩
                    rcases not_not.mp hrange with ⟨h1, _⟩
                    exact h1

theorem mark_pool_ready_ok {e : Env} {pool_id : Nat} {s s' : Storage}
    (h : mark_pool_ready e pool_id s = (.ok (), s')) : s' = s := by
  unfold mark_pool_ready at h
  split at h
  · simp at h
  · split at h
    · simp at h
    · split at h
      · simp at h
      · split at h
        · simp_all
        · simp at h

theorem cancel_pool_ok {e : Env} {operator pool_id : Nat} {s s' : Storage}
    (h : cancel_pool e operator pool_id s = (.ok (), s')) :
    s.paused.getD false = false ∧
    ∃ cfg p, s.config = some cfg ∧ s.pools pool_id = some p ∧
      p.resolved = false ∧ p.canceled = false ∧ p.state = .Active ∧
      s' = cancel_apply pool_id p s := by
  unfold cancel_pool at h
  split at h
  · simp at h
  · rename_i hpause
    split at h
    · simp at h
    · rename_i cfg hc
      split at h
      · simp at h
      · split at h
        · simp at h
        · rename_i p hp
          split at h
          · simp at h
          · split at h
            · simp at h
            · split at h
              · simp at h
              · rename_i hres hcanc htrans
                refine ⟨by simp_all, cfg, p, hc, hp, by simp_all, by simp_all, ?_,
                  by simp_all⟩
                rw [not_not] at htrans
                cases hstate : p.state
                · rfl
                · rw [hstate] at htrans; simp [is_valid_state_transition] at htrans
                · rw [hstate] at htrans; simp [is_valid_state_transition] at htrans

theorem place_prediction_ok {e : Env} {user pool_id : Nat} {amount : Int}
    {outcome : Nat} {s s' : Storage}
    (h : place_prediction e user pool_id amount outcome s = (.ok (), s')) :
    s.paused.getD false = false ∧
    ∃ p, s.pools pool_id = some p ∧ 0 < amount ∧
      p.resolved = false ∧ p.canceled = false ∧ p.state = .Active ∧
      e.timestamp < p.end_time ∧ outcome < p.options_count ∧
      s' = place_apply user pool_id amount outcome p s := by
  unfold place_prediction at h
  split at h
  · simp at h
  · rename_i hpause
    split at h
    · simp at h
    · split at h
      · simp at h
      · rename_i p hp
        split at h
        · simp at h
        · split at h
          · simp at h
          · split at h
            · simp at h
            · split at h
              · simp at h
              · split at h
                · simp at h
                · split at h
                  · simp at h
                  · rename_i hres hcanc hact hend hrange hover
                    exact ⟨by simp_all, p, hp, by omega, by simp_all, by simp_all,
                      by simp_all, by omega, by omega, by simp_all⟩

theorem claim_winnings_ok {e : Env} {user pool_id : Nat} {r : Int}
    {s s' : Storage} {tr : List Effect}
    (h : claim_winnings e user pool_id s = (.ok r, s', tr)) :
    s.paused.getD false = false ∧
    ∃ p, s.pools pool_id = some p ∧ p.state ≠ .Active ∧
      s.hasClaimed user pool_id = none ∧
      s'.pools = s.pools ∧ s'.outcomeStakesB = s.outcomeStakesB ∧
      s'.outcomeStakeI = s.outcomeStakeI ∧ s'.config = s.config ∧
      s'.poolIdCounter = s.poolIdCounter ∧ s'.tokenWhitelist = s.tokenWhitelist ∧
      s'.predictions = s.predictions ∧ s'.userPredCount = s.userPredCount ∧
      s'.userPredIndex = s.userPredIndex ∧
      s'.categoryCount = s.categoryCount ∧ s'.categoryIndex = s.categoryIndex ∧
      s'.paused = s.paused ∧
      s'.hasClaimed = updMap2 s.hasClaimed user pool_id (some true) ∧
      tr.head? = some (.setClaimed user pool_id) := by
  unfold claim_winnings at h
  split at h
  · simp at h
  · rename_i hpause
    split at h
    · simp at h
    · rename_i p hp
      split at h
      · simp at h
      · split at h
        · simp at h
        · rename_i hact hclaimed
          have hclnone : s.hasClaimed user pool_id = none := by
            cases hcl : s.hasClaimed user pool_id
            · rfl
            · rw [hcl] at hclaimed; simp at hclaimed
          refine ⟨by simp_all, p, hp, by simp_all, hclnone, ?_⟩
          split at h
          · simp only [Prod.mk.injEq] at h
            obtain ⟨-, hs, ht⟩ := h
            subst hs; subst ht
            simp [claim_mark]
          · split at h
            · simp only [Prod.mk.injEq] at h
              obtain ⟨-, hs, ht⟩ := h
              subst hs; subst ht
              simp [claim_mark, transfer_pools, transfer_stakesB, transfer_stakeI,
                transfer_config, transfer_counter, transfer_whitelist,
                transfer_predictions, transfer_userPredCount, transfer_userPredIndex,
                transfer_categoryCount, transfer_categoryIndex, transfer_paused,
                transfer_hasClaimed]
            · split at h
              · simp only [Prod.mk.injEq] at h
                obtain ⟨-, hs, ht⟩ := h
                subst hs; subst ht
                simp [claim_mark]
              · split at h
                · simp only [Prod.mk.injEq] at h
                  obtain ⟨-, hs, ht⟩ := h
                  subst hs; subst ht
                  simp [claim_mark]
                · split at h
                  · split at h
                    · simp at h
                    · simp only [Prod.mk.injEq] at h
                      obtain ⟨-, hs, ht⟩ := h
                      subst hs; subst ht
                      simp [claim_mark, transfer_pools, transfer_stakesB,
                        transfer_stakeI, transfer_config, transfer_counter,
                        transfer_whitelist, transfer_predictions,
                        transfer_userPredCount, transfer_userPredIndex,
                        transfer_categoryCount, transfer_categoryIndex,
                        transfer_paused, transfer_hasClaimed]
                  · simp at h
                  · simp at h

-- ── Preservation of the protocol invariant ─────────────────────────────────

theorem getD_false_eq_true {o : Option Bool} (h : o.getD false = true) :
    o = some true := by
  cases o <;> simp_all

theorem inv_initial (bal : Addr → Addr → Int) : Inv (initialStorage bal) := by
  refine ⟨?_, ?_, ?_⟩ <;> simp [initialStorage]

/-- Operations that leave the pool table, the stake tables and the counter
untouched, and end in an initialized state, preserve the invariant. -/
theorem inv_of_fields {s s' : Storage} (hInv : Inv s)
    (hpools : s'.pools = s.pools) (hB : s'.outcomeStakesB = s.outcomeStakesB)
    (hI : s'.outcomeStakeI = s.outcomeStakeI)
    (hcnt : s'.poolIdCounter = s.poolIdCounter)
    (hcfg : s'.config ≠ none) : Inv s' := by
  refine ⟨fun hc => absurd hc hcfg, ?_, ?_⟩
  · intro pid hge
    rw [hpools, hB, hI]
    exact hInv.fresh pid (by rw [hcnt] at hge; exact hge)
  · intro pid p hp
    rw [hB, hI]
    exact hInv.stake pid p (hpools ▸ hp)

theorem inv_init_op (ac tr fee delay : Nat) {s : Storage} (hInv : Inv s) :
    Inv (init ac tr fee delay s) := by
  unfold init
  cases hc : s.config with
  | some cfg => exact hInv
  | none =>
    obtain ⟨hwl, hcnt, hpools, hB, hI⟩ := hInv.uninit hc
    refine ⟨by simp, ?_, ?_⟩
    · intro pid _
      exact ⟨hpools pid, hB pid, fun i => hI pid i⟩
    · intro pid p hp
      rw [hpools pid] at hp
      exact Option.noConfusion hp

-- ── Field characterizations of the success branches ────────────────────────

/-- The pool created by `create_apply`, at the counter slot. -/
def newPool (creator end_time : Nat) (token options_count : Nat)
    (description metadata_url : String) (initial_liquidity : Int)
    (category : Nat) : Pool :=
  { end_time := end_time, resolved := false, canceled := false
    state := .Active, outcome := 0, token := token
    total_stake := initial_liquidity
    description := description, metadata_url := metadata_url
    options_count := options_count, initial_liquidity := initial_liquidity
    creator := creator, category := category }

theorem create_apply_pools (creator end_time token options_count : Nat)
    (description metadata_url : String) (initial_liquidity : Int) (category : Nat)
    (s : Storage) :
    (create_apply creator end_time token options_count description metadata_url
      initial_liquidity category s).pools =
    updMap s.pools ((s.poolIdCounter).getD 0)
      (some (newPool creator end_time token options_count description metadata_url
        initial_liquidity category)) := by
  unfold create_apply newPool
  by_cases h : initial_liquidity > 0 <;> simp [h, transfer_pools]

theorem create_apply_stakesB (creator end_time token options_count : Nat)
    (description metadata_url : String) (initial_liquidity : Int) (category : Nat)
    (s : Storage) :
    (create_apply creator end_time token options_count description metadata_url
      initial_liquidity category s).outcomeStakesB = s.outcomeStakesB := by
  unfold create_apply
  by_cases h : initial_liquidity > 0 <;> simp [h, transfer_stakesB]

theorem create_apply_stakeI (creator end_time token options_count : Nat)
    (description metadata_url : String) (initial_liquidity : Int) (category : Nat)
    (s : Storage) :
    (create_apply creator end_time token options_count description metadata_url
      initial_liquidity category s).outcomeStakeI = s.outcomeStakeI := by
  unfold create_apply
  by_cases h : initial_liquidity > 0 <;> simp [h, transfer_stakeI]

theorem create_apply_counter (creator end_time token options_count : Nat)
    (description metadata_url : String) (initial_liquidity : Int) (category : Nat)
    (s : Storage) :
    (create_apply creator end_time token options_count description metadata_url
      initial_liquidity category s).poolIdCounter =
    some ((s.poolIdCounter).getD 0 + 1) := by
  unfold create_apply
  by_cases h : initial_liquidity > 0 <;> simp [h]

theorem create_apply_config (creator end_time token options_count : Nat)
    (description metadata_url : String) (initial_liquidity : Int) (category : Nat)
    (s : Storage) :
    (create_apply creator end_time token options_count description metadata_url
      initial_liquidity category s).config = s.config := by
  unfold create_apply
  by_cases h : initial_liquidity > 0 <;> simp [h, transfer_config]

/-- Reading the stake vector only depends on the two stake tables. -/
theorem get_outcome_stakes_congr {s s' : Storage} (pid n : Nat)
    (h1 : s'.outcomeStakesB = s.outcomeStakesB)
    (h2 : s'.outcomeStakeI = s.outcomeStakeI) :
    get_outcome_stakes s' pid n = get_outcome_stakes s pid n := by
  unfold get_outcome_stakes fallbackStakes
  rw [h1, h2]

-- ── Preservation of the protocol invariant (pool-touching operations) ──────

/-- Rewriting one stored pool with a pool of equal `total_stake`,
`initial_liquidity` and `options_count` (as resolution and cancellation do)
preserves the invariant. -/
theorem inv_pool_rewrite {s : Storage} {pid : Nat} {p p' : Pool} (hInv : Inv s)
    (hp : s.pools pid = some p) (hcfg : s.config ≠ none)
    (ht : p'.total_stake = p.total_stake)
    (hil : p'.initial_liquidity = p.initial_liquidity)
    (hoc : p'.options_count = p.options_count) :
    Inv { s with pools := updMap s.pools pid (some p') } := by
  have hlt : pid < (s.poolIdCounter).getD 0 := by
    by_contra hge
    have := (hInv.fresh pid (by omega)).1
    rw [this] at hp
    exact Option.noConfusion hp
  refine ⟨fun hc => absurd hc hcfg, ?_, ?_⟩
  · intro q hge
    dsimp only at hge ⊢
    rw [updMap_other _ _ _ _ (by omega)]
    exact hInv.fresh q hge
  · intro q pq hq
    dsimp only at hq ⊢
    by_cases hqe : q = pid
    · subst hqe
      rw [updMap_same] at hq
      obtain rfl : p' = pq := Option.some.injEq .. ▸ hq
      have hst := hInv.stake q p hp
      constructor
      · intro v hv
        obtain ⟨h1, h2⟩ := hst.1 v hv
        exact ⟨by rw [hoc]; exact h1, by rw [ht, hil]; exact h2⟩
      · intro hv
        obtain ⟨h1, h2⟩ := hst.2 hv
        exact ⟨by rw [ht, hil]; exact h1, h2⟩
    · rw [updMap_other _ _ _ _ hqe] at hq
      exact hInv.stake q pq hq

/-- Creating a pool preserves the invariant: the new pool sits at the fresh
counter slot, has `total_stake = initial_liquidity`, and no stake entry
exists for it yet. -/
theorem inv_create {s : Storage} {creator end_time token options_count : Nat}
    {description metadata_url : String} {initial_liquidity : Int} {category : Nat}
    (hInv : Inv s) (hwl : (s.tokenWhitelist token).getD false = true) :
    Inv (create_apply creator end_time token options_count description metadata_url
      initial_liquidity category s) := by
  have hcfg : s.config ≠ none := by
    intro hc
    exact absurd (getD_false_eq_true hwl) ((hInv.uninit hc).1 token)
  set pid := (s.poolIdCounter).getD 0 with hpid
  refine ⟨?_, ?_, ?_⟩
  · intro hc
    rw [create_apply_config] at hc
    exact absurd hc hcfg
  · intro q hge
    rw [create_apply_counter] at hge
    simp only [Option.getD_some] at hge
    rw [create_apply_pools, create_apply_stakesB, create_apply_stakeI]
    refine ⟨?_, (hInv.fresh q (by omega)).2.1, (hInv.fresh q (by omega)).2.2⟩
    rw [updMap_other _ _ _ _ (by omega : q ≠ pid)]
    exact (hInv.fresh q (by omega)).1
  · intro q pq hq
    rw [create_apply_pools] at hq
    rw [create_apply_stakesB, create_apply_stakeI]
    by_cases hqe : q = pid
    · subst hqe
      rw [updMap_same] at hq
      obtain rfl : _ = pq := Option.some.injEq .. ▸ hq
      have hfr := hInv.fresh pid (by omega)
      constructor
      · intro v hv
        rw [hfr.2.1] at hv
        exact Option.noConfusion hv
      · intro _
        exact ⟨rfl, hfr.2.2⟩
    · rw [updMap_other _ _ _ _ hqe] at hq
      exact hInv.stake q pq hq

theorem place_apply_pools (user pool_id : Nat) (amount : Int) (outcome : Nat)
    (p : Pool) (s : Storage) :
    (place_apply user pool_id amount outcome p s).pools =
    updMap s.pools pool_id (some { p with total_stake := p.total_stake + amount }) := by
  unfold place_apply update_outcome_stake
  simp [transfer_pools]

theorem place_apply_stakesB (user pool_id : Nat) (amount : Int) (outcome : Nat)
    (p : Pool) (s : Storage) :
    (place_apply user pool_id amount outcome p s).outcomeStakesB =
    updMap s.outcomeStakesB pool_id
      (some ((get_outcome_stakes s pool_id p.options_count).set outcome
        ((get_outcome_stakes s pool_id p.options_count).getD outcome 0 + amount))) := by
  unfold place_apply update_outcome_stake get_outcome_stakes fallbackStakes
  simp [transfer_stakesB, transfer_stakeI]

theorem place_apply_stakeI (user pool_id : Nat) (amount : Int) (outcome : Nat)
    (p : Pool) (s : Storage) :
    (place_apply user pool_id amount outcome p s).outcomeStakeI =
    updMap2 s.outcomeStakeI pool_id outcome
      (some ((get_outcome_stakes s pool_id p.options_count).getD outcome 0 + amount)) := by
  unfold place_apply update_outcome_stake get_outcome_stakes fallbackStakes
  simp [transfer_stakesB, transfer_stakeI]

theorem place_apply_counter (user pool_id : Nat) (amount : Int) (outcome : Nat)
    (p : Pool) (s : Storage) :
    (place_apply user pool_id amount outcome p s).poolIdCounter = s.poolIdCounter := by
  unfold place_apply update_outcome_stake
  simp [transfer_counter]

theorem place_apply_config (user pool_id : Nat) (amount : Int) (outcome : Nat)
    (p : Pool) (s : Storage) :
    (place_apply user pool_id amount outcome p s).config = s.config := by
  unfold place_apply update_outcome_stake
  simp [transfer_config]

theorem place_apply_predictions (user pool_id : Nat) (amount : Int) (outcome : Nat)
    (p : Pool) (s : Storage) :
    (place_apply user pool_id amount outcome p s).predictions =
    updMap2 s.predictions user pool_id (some ⟨amount, outcome⟩) := by
  unfold place_apply update_outcome_stake
  simp [transfer_predictions]

theorem place_apply_hasClaimed (user pool_id : Nat) (amount : Int) (outcome : Nat)
    (p : Pool) (s : Storage) :
    (place_apply user pool_id amount outcome p s).hasClaimed = s.hasClaimed := by
  unfold place_apply update_outcome_stake
  simp [transfer_hasClaimed]

theorem place_apply_userPredCount (user pool_id : Nat) (amount : Int) (outcome : Nat)
    (p : Pool) (s : Storage) :
    (place_apply user pool_id amount outcome p s).userPredCount =
    updMap s.userPredCount user (some ((s.userPredCount user).getD 0 + 1)) := by
  unfold place_apply update_outcome_stake
  simp [transfer_userPredCount]

theorem place_apply_userPredIndex (user pool_id : Nat) (amount : Int) (outcome : Nat)
    (p : Pool) (s : Storage) :
    (place_apply user pool_id amount outcome p s).userPredIndex =
    updMap2 s.userPredIndex user ((s.userPredCount user).getD 0) (some pool_id) := by
  unfold place_apply update_outcome_stake
  simp [transfer_userPredIndex, transfer_userPredCount]

/-- The effective stake vector of a stored pool has `options_count` entries
and sums (with the initial liquidity) to the pool total. -/
theorem stake_vector_spec {s : Storage} {pid : Nat} {p : Pool} (hInv : Inv s)
    (hp : s.pools pid = some p) :
    (get_outcome_stakes s pid p.options_count).length = p.options_count ∧
    p.total_stake = p.initial_liquidity + (get_outcome_stakes s pid p.options_count).sum := by
  have hst := hInv.stake pid p hp
  unfold get_outcome_stakes
  cases hB : s.outcomeStakesB pid with
  | some v => exact hst.1 v hB
  | none =>
    obtain ⟨h1, h2⟩ := hst.2 hB
    refine ⟨fallbackStakes_length s pid p.options_count, ?_⟩
    rw [fallbackStakes_zero s pid p.options_count h2, h1]
    ring

/-- Placing a stake preserves the invariant: the pool total and the outcome
stake grow by the same amount. -/
theorem inv_place {s : Storage} {user pool_id : Nat} {amount : Int} {outcome : Nat}
    {p : Pool} (hInv : Inv s) (hp : s.pools pool_id = some p)
    (hoc : outcome < p.options_count) :
    Inv (place_apply user pool_id amount outcome p s) := by
  have hcfg : s.config ≠ none := by
    intro hc
    have := ((hInv.uninit hc).2.2.1) pool_id
    rw [this] at hp
    exact Option.noConfusion hp
  have hlt : pool_id < (s.poolIdCounter).getD 0 := by
    by_contra hge
    have := (hInv.fresh pool_id (by omega)).1
    rw [this] at hp
    exact Option.noConfusion hp
  obtain ⟨hLlen, hLsum⟩ := stake_vector_spec hInv hp
  refine ⟨?_, ?_, ?_⟩
  · intro hc
    rw [place_apply_config] at hc
    exact absurd hc hcfg
  · intro q hge
    rw [place_apply_counter] at hge
    rw [place_apply_pools, place_apply_stakesB, place_apply_stakeI]
    refine ⟨?_, ?_, ?_⟩
    · rw [updMap_other _ _ _ _ (by omega)]
      exact (hInv.fresh q hge).1
    · rw [updMap_other _ _ _ _ (by omega)]
      exact (hInv.fresh q hge).2.1
    · intro i
      rw [updMap2_other _ _ _ _ _ _ (by omega)]
      exact (hInv.fresh q hge).2.2 i
  · intro q pq hq
    rw [place_apply_pools] at hq
    rw [place_apply_stakesB, place_apply_stakeI]
    by_cases hqe : q = pool_id
    · subst hqe
      rw [updMap_same] at hq
      obtain rfl : _ = pq := Option.some.injEq .. ▸ hq
      constructor
      · intro v hv
        rw [updMap_same] at hv
        obtain rfl : _ = v := Option.some.injEq .. ▸ hv
        refine ⟨?_, ?_⟩
        · simp only [List.length_set]
          exact hLlen
        · simp only []
          rw [sum_set_getD_add _ _ _ (by rw [hLlen]; exact hoc)]
          rw [hLsum]
          ring
      · intro hv
        rw [updMap_same] at hv
        exact Option.noConfusion hv
    · rw [updMap_other _ _ _ _ hqe] at hq
      constructor
      · intro v hv
        rw [updMap_other _ _ _ _ hqe] at hv
        exact (hInv.stake q pq hq).1 v hv
      · intro hv
        rw [updMap_other _ _ _ _ hqe] at hv
        refine ⟨((hInv.stake q pq hq).2 hv).1, ?_⟩
        intro i
        rw [updMap2_other _ _ _ _ _ _ (by intro hx; exact hqe hx.1)]
        exact ((hInv.stake q pq hq).2 hv).2 i

/-- Every successful public invocation preserves the protocol invariant. -/
theorem inv_step {s s' : Storage} (hInv : Inv s) (hstep : Step s s') : Inv s' := by
  cases hstep with
  | initStep ac tr fee delay s => exact inv_init_op ac tr fee delay hInv
  | pauseStep e admin s s' h =>
    obtain ⟨cfg, hc, rfl⟩ := pause_ok h
    exact inv_of_fields hInv rfl rfl rfl rfl (by simp [hc])
  | unpauseStep e admin s s' h =>
    obtain ⟨cfg, hc, rfl⟩ := unpause_ok h
    exact inv_of_fields hInv rfl rfl rfl rfl (by simp [hc])
  | setFeeStep e admin fee s s' h =>
    obtain ⟨cfg, hc, _, rfl⟩ := set_fee_bps_ok h
    exact inv_of_fields hInv rfl rfl rfl rfl (by simp)
  | setTreasuryStep e admin treasury s s' h =>
    obtain ⟨cfg, hc, rfl⟩ := set_treasury_ok h
    exact inv_of_fields hInv rfl rfl rfl rfl (by simp)
  | setDelayStep e admin delay s s' h =>
    obtain ⟨cfg, hc, rfl⟩ := set_resolution_delay_ok h
    exact inv_of_fields hInv rfl rfl rfl rfl (by simp)
  | addTokenStep e admin token s s' h =>
    obtain ⟨cfg, hc, rfl⟩ := add_token_ok h
    exact inv_of_fields hInv rfl rfl rfl rfl (by simp [hc])
  | removeTokenStep e admin token s s' h =>
    obtain ⟨cfg, hc, rfl⟩ := remove_token_ok h
    exact inv_of_fields hInv rfl rfl rfl rfl (by simp [hc])
  | createStep e creator end_time token options_count description metadata_url
      initial_liquidity category s s' pool_id h =>
    obtain ⟨-, hwl, -, -, -, rfl⟩ := create_pool_ok h
    exact inv_create hInv hwl
  | resolveStep e operator pool_id outcome s s' h =>
    obtain ⟨-, cfg, p, hc, hp, -, -, -, -, -, rfl⟩ := resolve_pool_ok h
    exact inv_pool_rewrite hInv hp (by simp [hc]) rfl rfl rfl
  | oracleStep e oracle pool_id outcome s s' h =>
    obtain ⟨-, cfg, p, hc, hp, -, -, -, -, -, rfl⟩ := oracle_resolve_ok h
    exact inv_pool_rewrite hInv hp (by simp [hc]) rfl rfl rfl
  | markReadyStep e pool_id s s' h =>
    rw [mark_pool_ready_ok h]
    exact hInv
  | cancelStep e operator pool_id s s' h =>
    obtain ⟨-, cfg, p, hc, hp, -, -, -, rfl⟩ := cancel_pool_ok h
    exact inv_pool_rewrite hInv hp (by simp [hc]) rfl rfl rfl
  | placeStep e user pool_id amount outcome s s' h =>
    obtain ⟨-, p, hp, -, -, -, -, -, hoc, rfl⟩ := place_prediction_ok h
    exact inv_place hInv hp hoc
  | claimStep e user pool_id r s s' tr h =>
    obtain ⟨-, p, hp, -, -, hpl, hB, hI, hcfg, hcnt, hwl, -⟩ := claim_winnings_ok h
    refine inv_of_fields hInv hpl hB hI hcnt ?_
    rw [hcfg]
    intro hc
    have := ((hInv.uninit hc).2.2.1) pool_id
    rw [this] at hp
    exact Option.noConfusion hp

/-- Every reachable storage state satisfies the protocol invariant. -/
theorem reachable_inv {s : Storage} (h : Reachable s) : Inv s := by
  induction h with
  | base bal => exact inv_initial bal
  | step _ hstep ih => exact inv_step ih hstep

theorem init_pools (ac tr fee delay : Nat) (s : Storage) :
    (init ac tr fee delay s).pools = s.pools := by
  unfold init; cases s.config <;> rfl

theorem init_hasClaimed (ac tr fee delay : Nat) (s : Storage) :
    (init ac tr fee delay s).hasClaimed = s.hasClaimed := by
  unfold init; cases s.config <;> rfl

theorem create_apply_hasClaimed (creator end_time token options_count : Nat)
    (description metadata_url : String) (initial_liquidity : Int) (category : Nat)
    (s : Storage) :
    (create_apply creator end_time token options_count description metadata_url
      initial_liquidity category s).hasClaimed = s.hasClaimed := by
  unfold create_apply
  by_cases h : initial_liquidity > 0 <;> simp [h, transfer_hasClaimed]

/-- A pool that has left the `Active` state is frozen: no successful
invocation changes its stored record at all. -/
theorem pool_frozen {s s' : Storage} (hInv : Inv s) (hstep : Step s s')
    {pid : Nat} {p : Pool} (hp : s.pools pid = some p)
    (hna : p.state ≠ .Active) : s'.pools pid = some p := by
  have hlt : pid < (s.poolIdCounter).getD 0 := by
    by_contra hge
    have := (hInv.fresh pid (by omega)).1
    rw [this] at hp
    exact Option.noConfusion hp
  cases hstep with
  | initStep ac tr fee delay s => rw [init_pools]; exact hp
  | pauseStep e admin s s' h =>
    obtain ⟨cfg, hc, rfl⟩ := pause_ok h; exact hp
  | unpauseStep e admin s s' h =>
    obtain ⟨cfg, hc, rfl⟩ := unpause_ok h; exact hp
  | setFeeStep e admin fee s s' h =>
    obtain ⟨cfg, hc, _, rfl⟩ := set_fee_bps_ok h; exact hp
  | setTreasuryStep e admin treasury s s' h =>
    obtain ⟨cfg, hc, rfl⟩ := set_treasury_ok h; exact hp
  | setDelayStep e admin delay s s' h =>
    obtain ⟨cfg, hc, rfl⟩ := set_resolution_delay_ok h; exact hp
  | addTokenStep e admin token s s' h =>
    obtain ⟨cfg, hc, rfl⟩ := add_token_ok h; exact hp
  | removeTokenStep e admin token s s' h =>
    obtain ⟨cfg, hc, rfl⟩ := remove_token_ok h; exact hp
  | createStep e creator end_time token options_count description metadata_url
      initial_liquidity category s s' pool_id h =>
    obtain ⟨-, -, -, -, -, rfl⟩ := create_pool_ok h
    rw [create_apply_pools, updMap_other _ _ _ _ (by omega)]
    exact hp
  | resolveStep e operator pool_id outcome s s' h =>
    obtain ⟨-, cfg, p0, hc, hp0, -, -, hact, -, -, rfl⟩ := resolve_pool_ok h
    unfold resolve_apply
    dsimp only
    by_cases hqe : pid = pool_id
    · subst hqe
      rw [hp0] at hp
      obtain rfl : p0 = p := Option.some.injEq .. ▸ hp
      exact absurd hact hna
    · rw [updMap_other _ _ _ _ hqe]; exact hp
  | oracleStep e oracle pool_id outcome s s' h =>
    obtain ⟨-, cfg, p0, hc, hp0, -, -, hact, -, -, rfl⟩ := oracle_resolve_ok h
    unfold resolve_apply
    dsimp only
    by_cases hqe : pid = pool_id
    · subst hqe
      rw [hp0] at hp
      obtain rfl : p0 = p := Option.some.injEq .. ▸ hp
      exact absurd hact hna
    · rw [updMap_other _ _ _ _ hqe]; exact hp
  | markReadyStep e pool_id s s' h =>
    rw [mark_pool_ready_ok h]; exact hp
  | cancelStep e operator pool_id s s' h =>
    obtain ⟨-, cfg, p0, hc, hp0, -, -, hact, rfl⟩ := cancel_pool_ok h
    unfold cancel_apply
    dsimp only
    by_cases hqe : pid = pool_id
    · subst hqe
      rw [hp0] at hp
      obtain rfl : p0 = p := Option.some.injEq .. ▸ hp
      exact absurd hact hna
    · rw [updMap_other _ _ _ _ hqe]; exact hp
  | placeStep e user pool_id amount outcome s s' h =>
    obtain ⟨-, p0, hp0, -, -, -, hact, -, -, rfl⟩ := place_prediction_ok h
    rw [place_apply_pools]
    by_cases hqe : pid = pool_id
    · subst hqe
      rw [hp0] at hp
      obtain rfl : p0 = p := Option.some.injEq .. ▸ hp
      exact absurd hact hna
    · rw [updMap_other _ _ _ _ hqe]; exact hp
  | claimStep e user pool_id r s s' tr h =>
    obtain ⟨-, p0, hp0, -, -, hpl, -⟩ := claim_winnings_ok h
    rw [hpl]; exact hp

/-- The claim receipt is never deleted: once present it stays present. -/
theorem hasClaimed_mono {s s' : Storage} (hstep : Step s s') {u pid : Nat}
    (h : (s.hasClaimed u pid).isSome) : (s'.hasClaimed u pid).isSome := by
  cases hstep with
  | initStep ac tr fee delay s => rw [init_hasClaimed]; exact h
  | pauseStep e admin s s' hh =>
    obtain ⟨cfg, hc, rfl⟩ := pause_ok hh; exact h
  | unpauseStep e admin s s' hh =>
    obtain ⟨cfg, hc, rfl⟩ := unpause_ok hh; exact h
  | setFeeStep e admin fee s s' hh =>
    obtain ⟨cfg, hc, _, rfl⟩ := set_fee_bps_ok hh; exact h
  | setTreasuryStep e admin treasury s s' hh =>
    obtain ⟨cfg, hc, rfl⟩ := set_treasury_ok hh; exact h
  | setDelayStep e admin delay s s' hh =>
    obtain ⟨cfg, hc, rfl⟩ := set_resolution_delay_ok hh; exact h
  | addTokenStep e admin token s s' hh =>
    obtain ⟨cfg, hc, rfl⟩ := add_token_ok hh; exact h
  | removeTokenStep e admin token s s' hh =>
    obtain ⟨cfg, hc, rfl⟩ := remove_token_ok hh; exact h
  | createStep e creator end_time token options_count description metadata_url
      initial_liquidity category s s' pool_id hh =>
    obtain ⟨-, -, -, -, -, rfl⟩ := create_pool_ok hh
    rw [create_apply_hasClaimed]; exact h
  | resolveStep e operator pool_id outcome s s' hh =>
    obtain ⟨-, cfg, p0, hc, hp0, -, -, -, -, -, rfl⟩ := resolve_pool_ok hh
    exact h
  | oracleStep e oracle pool_id outcome s s' hh =>
    obtain ⟨-, cfg, p0, hc, hp0, -, -, -, -, -, rfl⟩ := oracle_resolve_ok hh
    exact h
  | markReadyStep e pool_id s s' hh =>
    rw [mark_pool_ready_ok hh]; exact h
  | cancelStep e operator pool_id s s' hh =>
    obtain ⟨-, cfg, p0, hc, hp0, -, -, -, rfl⟩ := cancel_pool_ok hh
    exact h
  | placeStep e user pool_id amount outcome s s' hh =>
    obtain ⟨-, p0, hp0, -, -, -, -, -, -, rfl⟩ := place_prediction_ok hh
    rw [place_apply_hasClaimed]; exact h
  | claimStep e user0 pool_id0 r s s' tr hh =>
    obtain ⟨-, p0, hp0, -, -, -, -, -, -, -, -, -, -, -, -, -, -, hcl, -⟩ :=
      claim_winnings_ok hh
    rw [hcl]
    unfold updMap2
    by_cases hk : u = user0 ∧ pid = pool_id0
    · simp [hk]
    · simp only [hk, if_neg, ite_false]
      exact h

-- ── Concrete fixtures for witnesses and counterexamples ────────────────────

/-- An environment in which address 1 holds every role (admin, operator,
oracle) and the ledger time is 100. -/
def adminEnv : Env := ⟨100, fun _ u _ => u == 1⟩

/-- An initialized storage whose pause flag is set. -/
def pausedState : Storage :=
  { initialStorage (fun _ _ => 0) with
    config := some ⟨500, 7, 8, 0⟩
    paused := some true }

/-- The pool of settlement Scenario A: three outcomes, resolved with winning
outcome 1, total stake 600 of which 400 sits on the winning outcome. -/
def scenarioAPool : Pool :=
  { end_time := 1000, resolved := true, canceled := false, state := .Resolved
    outcome := 1, token := 9, total_stake := 600
    description := "", metadata_url := ""
    options_count := 3, initial_liquidity := 0, creator := 1, category := 0 }

/-- Scenario A storage: users 1, 2, 3 staked 100, 200, 300 on outcomes
1, 2, 1; outcome 1 has resolved as the winner; nobody has claimed yet. -/
def scenarioA : Storage :=
  { initialStorage (fun _ _ => 1000000) with
    config := some ⟨0, 7, 8, 0⟩
    poolIdCounter := some 1
    pools := fun pid => if pid = 0 then some scenarioAPool else none
    predictions := fun u pid =>
      if pid = 0 then
        if u = 1 then some ⟨100, 1⟩
        else if u = 2 then some ⟨200, 2⟩
        else if u = 3 then some ⟨300, 1⟩
        else none
      else none
    outcomeStakesB := fun pid => if pid = 0 then some [0, 400, 200] else none
    outcomeStakeI := fun pid i =>
      if pid = 0 ∧ i = 1 then some 400
      else if pid = 0 ∧ i = 2 then some 200
      else none }

-- ── Claim theorems ─────────────────────────────────────────────────────────

/-- Claim C2 (status: code_bug). The claim states that after every public
operation — including `init`, which receives `fee_bps` as an argument —
`Config.fee_bps ≤ 10,000` holds. The code violates this: `init` stores its
`fee_bps` argument without any validation, so initializing with 20,000 bps
leaves `Config.fee_bps = 20000 > 10000`, contradicting the contract's own
documented invariant INV-6 and the guard that `set_fee_bps` does enforce
(shown in the last conjunct: the same value is rejected there). -/
theorem C2_init_stores_unvalidated_fee :
    ((init 8 7 20000 0 (initialStorage (fun _ _ => 0))).config).map Config.fee_bps =
      some 20000 ∧
    is_valid_fee_bps 20000 = false ∧
    (set_fee_bps adminEnv 1 20000
      (init 8 7 500 0 (initialStorage (fun _ _ => 0)))).1 = .panic .feeTooHigh := by
  refine ⟨by rfl, by rfl, by rfl⟩

set_option maxRecDepth 8192 in
/-- Claim C4 (status: confirmed). The settlement calculator
`calculate_winnings` returns 0 when the winning stake is 0; on nonnegative
stakes with a positive winning stake and an in-range product it returns
`floor(user_stake * total_stake / winning_stake)` (Rust's truncating division
coincides with floor division on this domain); on i128 overflow of the
product it aborts loudly with the overflow panic instead of wrapping; and on
Scenario A (total 600, winning stake 400) the claim path pays 150 to the
100-staker, 450 to the 300-staker, and 0 to the 200-staker on the losing
outcome. -/
theorem C4_settlement_calculator :
    (∀ u t : Int, calculate_winnings u 0 t = .ok 0) ∧
    (∀ u w t : Int, 0 ≤ u → 0 ≤ t → 0 < w →
      i128Min ≤ u * t → u * t ≤ i128Max →
      calculate_winnings u w t = .ok ((u * t).fdiv w)) ∧
    (∀ u w t : Int, w ≠ 0 → (u * t < i128Min ∨ i128Max < u * t) →
      calculate_winnings u w t = .panic .winningsOverflow) ∧
    (claim_winnings adminEnv 1 0 scenarioA).1 = .ok 150 ∧
    (claim_winnings adminEnv 3 0 scenarioA).1 = .ok 450 ∧
    (claim_winnings adminEnv 2 0 scenarioA).1 = .ok 0 := by
  refine ⟨?_, ?_, ?_, by rfl, by rfl, by rfl⟩
  · intro u t
    simp [calculate_winnings]
  · intro u w t hu ht hw h1 h2
    unfold calculate_winnings checked_mul checked_div
    rw [if_neg (by omega), if_pos ⟨h1, h2⟩]
    simp only [if_neg (by omega : ¬w = 0)]
    rw [if_neg (by rintro ⟨-, rfl⟩; omega)]
    rw [Int.tdiv_eq_ediv (mul_nonneg hu ht) hw.le, Int.fdiv_eq_ediv _ hw.le]
  · intro u w t hw hover
    unfold calculate_winnings checked_mul
    rw [if_neg hw, if_neg (by omega)]

set_option maxRecDepth 8192 in
/-- Witness for C4: the floor-division branch applied at user stake 5,
winning stake 2, total stake 8. -/
theorem C4_witness : calculate_winnings 5 2 8 = .ok ((5 * 8 : Int).fdiv 2) :=
  C4_settlement_calculator.2.1 5 2 8 (by decide) (by decide) (by decide)
    (by decide) (by decide)

/-- Claim C8 (status: corrected). While the pause flag is set, every
entry point that is gated by `require_not_paused` fails with the paused
panic before any other validation — the arguments below are fully arbitrary,
so the failure precedes authorization, pool lookup and argument checks, and
the state is returned unchanged. (The counterexample shows the claim's
"including pause and unpause themselves" part is false: those two are not
gated.) -/
theorem C8_paused_gates_entry_points :
    ∀ (s : Storage) (e : Env), s.paused.getD false = true →
      (∀ admin fee, set_fee_bps e admin fee s = (.panic .contractPaused, s)) ∧
      (∀ admin treasury, set_treasury e admin treasury s = (.panic .contractPaused, s)) ∧
      (∀ admin delay, set_resolution_delay e admin delay s = (.panic .contractPaused, s)) ∧
      (∀ admin token, add_token_to_whitelist e admin token s =
        (.panic .contractPaused, s)) ∧
      (∀ admin token, remove_token_from_whitelist e admin token s =
        (.panic .contractPaused, s)) ∧
      (∀ creator end_time token options_count description metadata_url
          initial_liquidity category,
        create_pool e creator end_time token options_count description metadata_url
          initial_liquidity category s = (.panic .contractPaused, s)) ∧
      (∀ operator pool_id outcome, resolve_pool e operator pool_id outcome s =
        (.panic .contractPaused, s)) ∧
      (∀ oracle pool_id outcome, oracle_resolve e oracle pool_id outcome s =
        (.panic .contractPaused, s)) ∧
      (∀ operator pool_id, cancel_pool e operator pool_id s =
        (.panic .contractPaused, s)) ∧
      (∀ user pool_id amount outcome, place_prediction e user pool_id amount outcome s =
        (.panic .contractPaused, s)) ∧
      (∀ user pool_id, claim_winnings e user pool_id s =
        (.panic .contractPaused, s, [])) := by
  intro s e hp
  refine ⟨?_, ?_, ?_, ?_, ?_, ?_, ?_, ?_, ?_, ?_, ?_⟩ <;> intros <;>
    simp only [set_fee_bps, set_treasury, set_resolution_delay,
      add_token_to_whitelist, remove_token_from_whitelist, create_pool,
      resolve_pool, oracle_resolve, cancel_pool, place_prediction,
      claim_winnings, hp, if_true]

/-- Witness for C8: the paused gate applied to `set_fee_bps` in a concrete
paused state. -/
theorem C8_witness :
    set_fee_bps adminEnv 1 42 pausedState = (.panic .contractPaused, pausedState) :=
  (C8_paused_gates_entry_points pausedState adminEnv (by rfl)).1 1 42

/-- Counterexample for C8: `unpause` (and `pause`) are state-mutating entry
points that are NOT gated by the pause flag — called while paused, `unpause`
succeeds and clears the flag (it must, or the contract could never be
unpaused), refuting "this covers all state-mutating operations, including
pause and unpause themselves". -/
theorem C8_counterexample :
    pausedState.paused.getD false = true ∧
    (unpause adminEnv 1 pausedState).1 = .ok () ∧
    ((unpause adminEnv 1 pausedState).2.paused.getD false) = false ∧
    (pause adminEnv 1 pausedState).1 = .ok () := by
  refine ⟨by rfl, by rfl, by rfl, by rfl⟩

theorem mapOptList_eq_some {α β : Type} (g : α → Option β) (fn : α → β) :
    ∀ l : List α, (∀ x ∈ l, g x = some (fn x)) → mapOptList g l = some (l.map fn) := by
  intro l
  induction l with
  | nil => intro _; rfl
  | cons x xs ih =>
    intro h
    have hx := h x (by simp)
    have hxs := ih (fun y hy => h y (by simp [hy]))
    simp [mapOptList, hx, hxs]

/-- A concrete category index for the C9 witness: category 5 holds three
pools, with pool id `10 + i` in slot `i`. -/
def catState : Storage :=
  { initialStorage (fun _ _ => 0) with
    categoryCount := fun c => if c = 5 then some 3 else none
    categoryIndex := fun c i => if c = 5 ∧ i < 3 then some (10 + i) else none }

/-- Claim C9 (status: confirmed). Both pagination queries return an empty
result whenever `offset ≥ count` or `limit = 0`; and for `offset < count`
and `limit > 0`, `get_pools_by_category` returns the index entries at
positions `count-1-offset` down through `count-offset-min(limit,count-offset)`
— most-recently-added first. -/
theorem C9_pagination :
    (∀ (s : Storage) (u off lim : Nat),
      off ≥ (s.userPredCount u).getD 0 ∨ lim = 0 →
      get_user_predictions u off lim s = .ok []) ∧
    (∀ (s : Storage) (c off lim : Nat),
      off ≥ (s.categoryCount c).getD 0 ∨ lim = 0 →
      get_pools_by_category c off lim s = .ok []) ∧
    (∀ (s : Storage) (c off lim count : Nat) (f : Nat → Nat),
      (s.categoryCount c).getD 0 = count →
      (∀ i, i < count → s.categoryIndex c i = some (f i)) →
      off < count → 0 < lim →
      get_pools_by_category c off lim s =
        .ok ((List.range (min lim (count - off))).map
          (fun j => f (count - 1 - off - j)))) := by
  refine ⟨?_, ?_, ?_⟩
  · intro s u off lim h
    unfold get_user_predictions
    rw [if_pos h]
  · intro s c off lim h
    unfold get_pools_by_category
    rw [if_pos h]
  · intro s c off lim count f hcount hidx hoff hlim
    unfold get_pools_by_category
    rw [hcount, if_neg (by omega)]
    have hrw : mapOptList (fun i => s.categoryIndex c (count - off - 1 - i))
        (List.range (min lim (count - off))) =
        some ((List.range (min lim (count - off))).map
          (fun i => f (count - off - 1 - i))) := by
      refine mapOptList_eq_some _ _ _ ?_
      intro x hx
      exact hidx _ (by omega)
    have hfe : (fun i => f (count - off - 1 - i)) =
        (fun j => f (count - 1 - off - j)) := by
      funext j
      congr 1
      omega
    show (match mapOptList (fun i => s.categoryIndex c (count - off - 1 - i))
        (List.range (min lim (count - off))) with
      | some l => Res.ok l
      | none => Res.panic PanicMsg.indexNotFound) = _
    rw [hrw, hfe]

/-- Witness for C9: backward pagination of category 5 from offset 0 with
limit 2 returns the two most recently added pool ids. -/
theorem C9_witness :
    get_pools_by_category 5 0 2 catState =
      .ok ((List.range (min 2 (3 - 0))).map (fun j => 10 + (3 - 1 - 0 - j))) :=
  C9_pagination.2.2 catState 5 0 2 3 (fun i => 10 + i) (by rfl)
    (fun i hi => by simp [catState, initialStorage, hi]) (by omega) (by omega)

/-- Claim C6 (status: confirmed). On a Canceled pool, a first
`claim_winnings` call by a user holding a prediction of amount `a` returns
exactly `a` — a full refund transferred from the contract to the user —
whatever outcome `oc` the user had chosen. -/
theorem C6_canceled_full_refund :
    ∀ (e : Env) (u pid : Nat) (s : Storage) (p : Pool) (a : Int) (oc : Nat),
      s.paused.getD false = false →
      s.pools pid = some p →
      p.state = .Canceled →
      s.predictions u pid = some ⟨a, oc⟩ →
      s.hasClaimed u pid = none →
      claim_winnings e u pid s =
        (.ok a, transfer (claim_mark u pid s) p.token contractAddr u a,
          [.setClaimed u pid, .transferE p.token contractAddr u a]) := by
  intro e u pid s p a oc hpause hp hcanc hpred hcl
  unfold claim_winnings
  simp only [hpause, Bool.false_eq_true, if_false, hp]
  rw [if_neg (by rw [hcanc]; intro hx; exact MarketState.noConfusion hx)]
  rw [if_neg (by rw [hcl]; simp)]
  have hpredm : (claim_mark u pid s).predictions u pid = some ⟨a, oc⟩ := hpred
  rw [hpredm]
  simp only [hcanc, if_pos]

/-- An active two-outcome pool whose `end_time` is the largest `u64` value,
used to exhibit the saturation behaviour of the resolution-delay check. -/
def latePool : Pool :=
  { end_time := u64Max, resolved := false, canceled := false, state := .Active
    outcome := 0, token := 9, total_stake := 0
    description := "", metadata_url := ""
    options_count := 2, initial_liquidity := 0, creator := 1, category := 0 }

/-- Storage holding `latePool` with a resolution delay of 1 second. -/
def lateState : Storage :=
  { initialStorage (fun _ _ => 0) with
    config := some ⟨0, 7, 8, 1⟩
    poolIdCounter := some 1
    pools := fun pid => if pid = 0 then some latePool else none }

/-- An environment at the largest `u64` ledger time where address 1 holds
every role. -/
def lateEnv : Env := ⟨u64Max, fun _ u _ => u == 1⟩

/-- Claim C7 (status: corrected). With all other preconditions held (pool
Active, caller authorized, outcome in range, contract not paused), both
`resolve_pool` and `oracle_resolve` return the `ResolutionDelayNotMet` error
exactly when `current_time < end_time +sat resolution_delay`, where `+sat`
is the source's `u64::saturating_add` (capped at `2^64 - 1`), and both
succeed at every `current_time` at or beyond that saturated threshold —
including the exact instant it is reached. The claim as stated (with the
mathematical sum `end_time + resolution_delay`) fails at the saturation
boundary; see the counterexample. -/
theorem C7_resolution_delay_boundary :
    ∀ (e : Env) (op orc pid oc : Nat) (s : Storage) (cfg : Config) (p : Pool),
      s.paused.getD false = false →
      s.config = some cfg →
      e.hasRole cfg.access_control op 1 = true →
      e.hasRole cfg.access_control orc 3 = true →
      s.pools pid = some p →
      p.resolved = false → p.canceled = false → p.state = .Active →
      oc < p.options_count →
      (e.timestamp < satAddU64 p.end_time cfg.resolution_delay →
        resolve_pool e op pid oc s = (.err .ResolutionDelayNotMet, s) ∧
        oracle_resolve e orc pid oc s = (.err .ResolutionDelayNotMet, s)) ∧
      (satAddU64 p.end_time cfg.resolution_delay ≤ e.timestamp →
        resolve_pool e op pid oc s = (.ok (), resolve_apply pid oc p s) ∧
        oracle_resolve e orc pid oc s = (.ok (), resolve_apply pid oc p s)) := by
  intro e op orc pid oc s cfg p hpause hcfg hrole1 hrole3 hp hres hcanc hact hoc
  constructor
  · intro hlt
    constructor <;>
      simp [resolve_pool, oracle_resolve, hpause, hcfg, hrole1, hrole3, hp,
        hres, hcanc, hact, hlt]
  · intro hge
    constructor <;>
      simp [resolve_pool, oracle_resolve, hpause, hcfg, hrole1, hrole3, hp,
        hres, hcanc, hact, hoc, is_valid_state_transition,
        Nat.not_lt.mpr hge]

set_option maxRecDepth 8192 in
/-- Witness for C7: at ledger time `2^64 - 1` the (saturated) threshold of
`latePool` is met, so resolution succeeds. -/
theorem C7_witness :
    resolve_pool lateEnv 1 0 0 lateState = (.ok (), resolve_apply 0 0 latePool lateState) ∧
    oracle_resolve lateEnv 1 0 0 lateState =
      (.ok (), resolve_apply 0 0 latePool lateState) :=
  (C7_resolution_delay_boundary lateEnv 1 1 0 0 lateState ⟨0, 7, 8, 1⟩ latePool
    rfl rfl rfl rfl rfl rfl rfl rfl (by decide)).2 (by decide)

set_option maxRecDepth 8192 in
/-- Counterexample for C7: with `end_time = 2^64 - 1` and
`resolution_delay = 1`, the current time `2^64 - 1` is strictly before the
mathematical `end_time + resolution_delay = 2^64`, yet `resolve_pool`
succeeds, because the source computes the threshold with `saturating_add`.
So "resolving before end_time + resolution_delay has elapsed is always
denied" is false at the `u64` saturation boundary. -/
theorem C7_counterexample :
    lateState.config.map Config.resolution_delay = some 1 ∧
    lateEnv.timestamp < latePool.end_time + 1 ∧
    (resolve_pool lateEnv 1 0 0 lateState).1 = .ok () := by
  refine ⟨by rfl, by decide, by rfl⟩

/-- Claim C10 (status: confirmed). Every successful `place_prediction` call
appends a new slot to the caller's user-prediction index and increments
the count, while overwriting the single `Prediction(user, pool)` record; so
after a user stakes twice on the same pool (amounts `a1` then `a2`,
outcomes `o1` then `o2`, starting from a count of 0), the count is 2, both
index slots point at the same pool, the stored prediction holds only the
second call's data, and `get_user_predictions` returns two entries both
reporting amount `a2` and outcome `o2`. -/
theorem C10_restake_appends_and_overwrites :
    ∀ (e1 e2 : Env) (u pid : Nat) (a1 a2 : Int) (o1 o2 : Nat) (s0 s1 s2 : Storage),
      (s0.userPredCount u).getD 0 = 0 →
      place_prediction e1 u pid a1 o1 s0 = (.ok (), s1) →
      place_prediction e2 u pid a2 o2 s1 = (.ok (), s2) →
      s2.userPredCount u = some 2 ∧
      s2.userPredIndex u 0 = some pid ∧
      s2.userPredIndex u 1 = some pid ∧
      s2.predictions u pid = some ⟨a2, o2⟩ ∧
      ∃ p2, s2.pools pid = some p2 ∧
        get_user_predictions u 0 2 s2 =
          .ok [⟨pid, a2, o2, p2.end_time, p2.state, p2.outcome⟩,
               ⟨pid, a2, o2, p2.end_time, p2.state, p2.outcome⟩] := by
  intro e1 e2 u pid a1 a2 o1 o2 s0 s1 s2 hc0 h1 h2
  obtain ⟨-, p, hp, -, -, -, -, -, -, rfl⟩ := place_prediction_ok h1
  obtain ⟨-, q, hq, -, -, -, -, -, -, rfl⟩ := place_prediction_ok h2
  have hcnt1 : (place_apply u pid a1 o1 p s0).userPredCount u = some 1 := by
    rw [place_apply_userPredCount, updMap_same, hc0]
  have hcnt2 : (place_apply u pid a2 o2 q (place_apply u pid a1 o1 p s0)).userPredCount u =
      some 2 := by
    rw [place_apply_userPredCount, updMap_same, hcnt1]
    rfl
  have hidx0 : (place_apply u pid a2 o2 q (place_apply u pid a1 o1 p s0)).userPredIndex u 0 =
      some pid := by
    rw [place_apply_userPredIndex, hcnt1]
    rw [updMap2_other _ _ _ _ _ _ (by simp)]
    rw [place_apply_userPredIndex, hc0, updMap2_same]
  have hidx1 : (place_apply u pid a2 o2 q (place_apply u pid a1 o1 p s0)).userPredIndex u 1 =
      some pid := by
    rw [place_apply_userPredIndex, hcnt1]
    simp only [Option.getD_some]
    rw [updMap2_same]
  have hpred2 : (place_apply u pid a2 o2 q (place_apply u pid a1 o1 p s0)).predictions u pid =
      some ⟨a2, o2⟩ := by
    rw [place_apply_predictions, updMap2_same]
  have hpool2 : (place_apply u pid a2 o2 q (place_apply u pid a1 o1 p s0)).pools pid =
      some { q with total_stake := q.total_stake + a2 } := by
    rw [place_apply_pools, updMap_same]
  refine ⟨hcnt2, hidx0, hidx1, hpred2, { q with total_stake := q.total_stake + a2 },
    hpool2, ?_⟩
  unfold get_user_predictions
  rw [hcnt2]
  simp only [Option.getD_some]
  rw [if_neg (by omega)]
  show (match mapOptList
      (user_pred_row (place_apply u pid a2 o2 q (place_apply u pid a1 o1 p s0)) u)
      (List.range' 0 (min (0 + 2) 2 - 0)) with
    | some l => Res.ok l
    | none => Res.panic PanicMsg.indexNotFound) = _
  have hrange : List.range' 0 (min (0 + 2) 2 - 0) = [0, 1] := by rfl
  rw [hrange]
  have hrow0 : user_pred_row (place_apply u pid a2 o2 q (place_apply u pid a1 o1 p s0)) u 0 =
      some ⟨pid, a2, o2, ({ q with total_stake := q.total_stake + a2 } : Pool).end_time,
        ({ q with total_stake := q.total_stake + a2 } : Pool).state,
        ({ q with total_stake := q.total_stake + a2 } : Pool).outcome⟩ := by
    simp [user_pred_row, hidx0, hpred2, hpool2]
  have hrow1 : user_pred_row (place_apply u pid a2 o2 q (place_apply u pid a1 o1 p s0)) u 1 =
      some ⟨pid, a2, o2, ({ q with total_stake := q.total_stake + a2 } : Pool).end_time,
        ({ q with total_stake := q.total_stake + a2 } : Pool).state,
        ({ q with total_stake := q.total_stake + a2 } : Pool).outcome⟩ := by
    simp [user_pred_row, hidx1, hpred2, hpool2]
  simp [mapOptList, hrow0, hrow1]

-- ── A concrete reachable execution used by several witnesses ───────────────

/-- Deployment state with every account holding 1,000,000 of every token. -/
def chain0 : Storage := initialStorage (fun _ _ => 1000000)

/-- After `init(access_control = 8, treasury = 7, fee 0, delay 0)`. -/
def chain1 : Storage := init 8 7 0 0 chain0

/-- After the admin whitelists token 9. -/
def chain2 : Storage := (add_token_to_whitelist adminEnv 1 9 chain1).2

/-- After creator 1 creates pool 0 (2 outcomes, end time 5000, initial
liquidity 100 — house money counted in `total_stake`). -/
def chain3 : Storage := (create_pool adminEnv 1 5000 9 2 "" "" 100 0 chain2).2

/-- After user 4 stakes 100 on outcome 0 of pool 0. -/
def chain4 : Storage := (place_prediction adminEnv 4 0 100 0 chain3).2

/-- After the operator cancels pool 0. -/
def chain5 : Storage := (cancel_pool adminEnv 1 0 chain4).2

/-- After user 4 claims the refund on the canceled pool 0. -/
def chain6 : Storage := (claim_winnings adminEnv 4 0 chain5).2.1

/-- Pool 0 as stored right after creation. -/
def chainPool : Pool := newPool 1 5000 9 2 "" "" 100 0

/-- Pool 0 after user 4's stake of 100 (total 200 = 100 liquidity + 100). -/
def chainPool4 : Pool := { chainPool with total_stake := 200 }

/-- Pool 0 after cancellation. -/
def chainPool5 : Pool := { chainPool4 with state := .Canceled, canceled := true }

set_option maxRecDepth 16384 in
theorem chain3_reachable : Reachable chain3 :=
  Reachable.step
    (Reachable.step
      (Reachable.step (Reachable.base (fun _ _ => 1000000))
        (Step.initStep 8 7 0 0 chain0))
      (Step.addTokenStep adminEnv 1 9 chain1 chain2 (by rfl)))
    (Step.createStep adminEnv 1 5000 9 2 "" "" 100 0 chain2 chain3 0 (by rfl))

set_option maxRecDepth 16384 in
theorem chain4_reachable : Reachable chain4 :=
  Reachable.step chain3_reachable
    (Step.placeStep adminEnv 4 0 100 0 chain3 chain4 (by rfl))

set_option maxRecDepth 16384 in
theorem chain5_reachable : Reachable chain5 :=
  Reachable.step chain4_reachable
    (Step.cancelStep adminEnv 1 0 chain4 chain5 (by rfl))

-- ── Remaining claim theorems ───────────────────────────────────────────────

/-- Claim C1 (status: corrected). For every reachable state and every stored
pool, `total_stake = initial_liquidity + Σ outcome_stake[i]` over the pool's
`options_count` outcome slots (as read back by `get_outcome_stakes`), and
every operation preserves this. The claim's stated equality
`total_stake = Σ outcome_stake[i]` therefore holds exactly when
`initial_liquidity = 0`; the counterexample shows it fails right after
`create_pool` with `initial_liquidity = 100`, whose liquidity enters
`total_stake` but is assigned to no outcome. -/
theorem C1_stake_conservation :
    ∀ (s : Storage), Reachable s → ∀ pid p, s.pools pid = some p →
      p.total_stake = p.initial_liquidity + sumStakes s pid p.options_count := by
  intro s hr pid p hp
  exact (stake_vector_spec (reachable_inv hr) hp).2

set_option maxRecDepth 16384 in
/-- Counterexample for C1: in the reachable state `chain3`, pool 0 was
created with initial liquidity 100, so its `total_stake` is 100 while the
sum of its `options_count = 2` outcome stakes is 0. -/
theorem C1_counterexample :
    Reachable chain3 ∧
    (chain3.pools 0).map Pool.total_stake = some 100 ∧
    (chain3.pools 0).map Pool.options_count = some 2 ∧
    sumStakes chain3 0 2 = 0 :=
  ⟨chain3_reachable, by rfl, by rfl, by rfl⟩

set_option maxRecDepth 16384 in
/-- Witness for C1: the conservation equality evaluated on pool 0 of the
reachable state `chain3` (100 = 100 + 0). -/
theorem C1_witness :
    chainPool.total_stake =
      chainPool.initial_liquidity + sumStakes chain3 0 chainPool.options_count :=
  C1_stake_conservation chain3 chain3_reachable 0 chainPool (by rfl)

/-- What one successful invocation can do to one stored pool: leave it
unchanged, resolve it (only from `Active`), cancel it (only from `Active`),
or add a stake to its total (only while `Active`). -/
theorem pool_step_cases {s s' : Storage} (hInv : Inv s) (hstep : Step s s')
    {pid : Nat} {p p' : Pool} (hp : s.pools pid = some p)
    (hp' : s'.pools pid = some p') :
    p' = p ∨
    (p.state = .Active ∧
      ∃ oc, p' = { p with state := .Resolved, resolved := true, outcome := oc }) ∨
    (p.state = .Active ∧ p' = { p with state := .Canceled, canceled := true }) ∨
    (p.state = .Active ∧ ∃ a, p' = { p with total_stake := p.total_stake + a }) := by
  have hlt : pid < (s.poolIdCounter).getD 0 := by
    by_contra hge
    have := (hInv.fresh pid (by omega)).1
    rw [this] at hp
    exact Option.noConfusion hp
  cases hstep with
  | initStep ac tr fee delay s =>
    rw [init_pools, hp] at hp'
    exact Or.inl (Option.some.injEq .. ▸ hp').symm
  | pauseStep e admin s s' h =>
    obtain ⟨cfg, hc, rfl⟩ := pause_ok h
    rw [show ({ s with paused := some true } : Storage).pools = s.pools from rfl, hp] at hp'
    exact Or.inl (Option.some.injEq .. ▸ hp').symm
  | unpauseStep e admin s s' h =>
    obtain ⟨cfg, hc, rfl⟩ := unpause_ok h
    rw [show ({ s with paused := some false } : Storage).pools = s.pools from rfl, hp] at hp'
    exact Or.inl (Option.some.injEq .. ▸ hp').symm
  | setFeeStep e admin fee s s' h =>
    obtain ⟨cfg, hc, _, rfl⟩ := set_fee_bps_ok h
    rw [show ({ s with config := some { cfg with fee_bps := fee } } : Storage).pools =
      s.pools from rfl, hp] at hp'
    exact Or.inl (Option.some.injEq .. ▸ hp').symm
  | setTreasuryStep e admin treasury s s' h =>
    obtain ⟨cfg, hc, rfl⟩ := set_treasury_ok h
    rw [show ({ s with config := some { cfg with treasury := treasury } } : Storage).pools =
      s.pools from rfl, hp] at hp'
    exact Or.inl (Option.some.injEq .. ▸ hp').symm
  | setDelayStep e admin delay s s' h =>
    obtain ⟨cfg, hc, rfl⟩ := set_resolution_delay_ok h
    rw [show ({ s with config := some { cfg with resolution_delay := delay } } :
      Storage).pools = s.pools from rfl, hp] at hp'
    exact Or.inl (Option.some.injEq .. ▸ hp').symm
  | addTokenStep e admin token s s' h =>
    obtain ⟨cfg, hc, rfl⟩ := add_token_ok h
    rw [show ({ s with tokenWhitelist := updMap s.tokenWhitelist token (some true) } :
      Storage).pools = s.pools from rfl, hp] at hp'
    exact Or.inl (Option.some.injEq .. ▸ hp').symm
  | removeTokenStep e admin token s s' h =>
    obtain ⟨cfg, hc, rfl⟩ := remove_token_ok h
    rw [show ({ s with tokenWhitelist := updMap s.tokenWhitelist token none } :
      Storage).pools = s.pools from rfl, hp] at hp'
    exact Or.inl (Option.some.injEq .. ▸ hp').symm
  | createStep e creator end_time token options_count description metadata_url
      initial_liquidity category s s' pool_id h =>
    obtain ⟨-, -, -, -, -, rfl⟩ := create_pool_ok h
    rw [create_apply_pools, updMap_other _ _ _ _ (by omega), hp] at hp'
    exact Or.inl (Option.some.injEq .. ▸ hp').symm
  | resolveStep e operator pool_id outcome s s' h =>
    obtain ⟨-, cfg, p0, hc, hp0, -, -, hact, -, -, rfl⟩ := resolve_pool_ok h
    unfold resolve_apply at hp'
    dsimp only at hp'
    by_cases hqe : pid = pool_id
    · subst hqe
      rw [hp0] at hp
      obtain rfl : p0 = p := Option.some.injEq .. ▸ hp
      rw [updMap_same] at hp'
      exact Or.inr (Or.inl ⟨hact, outcome, (Option.some.injEq .. ▸ hp').symm⟩)
    · rw [updMap_other _ _ _ _ hqe, hp] at hp'
      exact Or.inl (Option.some.injEq .. ▸ hp').symm
  | oracleStep e oracle pool_id outcome s s' h =>
    obtain ⟨-, cfg, p0, hc, hp0, -, -, hact, -, -, rfl⟩ := oracle_resolve_ok h
    unfold resolve_apply at hp'
    dsimp only at hp'
    by_cases hqe : pid = pool_id
    · subst hqe
      rw [hp0] at hp
      obtain rfl : p0 = p := Option.some.injEq .. ▸ hp
      rw [updMap_same] at hp'
      exact Or.inr (Or.inl ⟨hact, outcome, (Option.some.injEq .. ▸ hp').symm⟩)
    · rw [updMap_other _ _ _ _ hqe, hp] at hp'
      exact Or.inl (Option.some.injEq .. ▸ hp').symm
  | markReadyStep e pool_id s s' h =>
    rw [mark_pool_ready_ok h, hp] at hp'
    exact Or.inl (Option.some.injEq .. ▸ hp').symm
  | cancelStep e operator pool_id s s' h =>
    obtain ⟨-, cfg, p0, hc, hp0, -, -, hact, rfl⟩ := cancel_pool_ok h
    unfold cancel_apply at hp'
    dsimp only at hp'
    by_cases hqe : pid = pool_id
    · subst hqe
      rw [hp0] at hp
      obtain rfl : p0 = p := Option.some.injEq .. ▸ hp
      rw [updMap_same] at hp'
      exact Or.inr (Or.inr (Or.inl ⟨hact, (Option.some.injEq .. ▸ hp').symm⟩))
    · rw [updMap_other _ _ _ _ hqe, hp] at hp'
      exact Or.inl (Option.some.injEq .. ▸ hp').symm
  | placeStep e user pool_id amount outcome s s' h =>
    obtain ⟨-, p0, hp0, -, -, -, hact, -, -, rfl⟩ := place_prediction_ok h
    rw [place_apply_pools] at hp'
    by_cases hqe : pid = pool_id
    · subst hqe
      rw [hp0] at hp
      obtain rfl : p0 = p := Option.some.injEq .. ▸ hp
      rw [updMap_same] at hp'
      exact Or.inr (Or.inr (Or.inr ⟨hact, amount, (Option.some.injEq .. ▸ hp').symm⟩))
    · rw [updMap_other _ _ _ _ hqe, hp] at hp'
      exact Or.inl (Option.some.injEq .. ▸ hp').symm
  | claimStep e user pool_id r s s' tr h =>
    obtain ⟨-, p0, hp0, -, -, hpl, -⟩ := claim_winnings_ok h
    rw [hpl, hp] at hp'
    exact Or.inl (Option.some.injEq .. ▸ hp').symm

/-- Claim C5 (status: confirmed). Once a pool is Resolved or Canceled (state
not `Active`), no successful operation changes its `state`, `outcome`,
`resolved` or `canceled` flags; and whenever an operation does change a
pool's state, the old state was `Active` and the new state is `Resolved` or
`Canceled` — the only valid transitions. -/
theorem C5_monotone_pool_state :
    ∀ (s s' : Storage), Reachable s → Step s s' →
      ∀ pid p p', s.pools pid = some p → s'.pools pid = some p' →
        (p.state ≠ .Active →
          p'.state = p.state ∧ p'.outcome = p.outcome ∧
          p'.resolved = p.resolved ∧ p'.canceled = p.canceled) ∧
        (p'.state ≠ p.state →
          p.state = .Active ∧ (p'.state = .Resolved ∨ p'.state = .Canceled)) := by
  intro s s' hr hstep pid p p' hp hp'
  have hcases := pool_step_cases (reachable_inv hr) hstep hp hp'
  constructor
  · intro hna
    rcases hcases with rfl | ⟨ha, oc, rfl⟩ | ⟨ha, rfl⟩ | ⟨ha, a, rfl⟩
    · exact ⟨rfl, rfl, rfl, rfl⟩
    · exact absurd ha hna
    · exact absurd ha hna
    · exact ⟨rfl, rfl, rfl, rfl⟩
  · intro hne
    rcases hcases with rfl | ⟨ha, oc, rfl⟩ | ⟨ha, rfl⟩ | ⟨ha, a, rfl⟩
    · exact absurd rfl hne
    · exact ⟨ha, Or.inl rfl⟩
    · exact ⟨ha, Or.inr rfl⟩
    · exact absurd rfl hne

set_option maxRecDepth 16384 in
/-- Witness for C5: the cancellation step from `chain4` to `chain5` takes
pool 0 from `Active` to `Canceled`, matching the allowed transitions. -/
theorem C5_witness :
    chainPool4.state = .Active ∧
    (chainPool5.state = .Resolved ∨ chainPool5.state = .Canceled) :=
  (C5_monotone_pool_state chain4 chain5 chain4_reachable
    (Step.cancelStep adminEnv 1 0 chain4 chain5 (by rfl)) 0 chainPool4 chainPool5
    (by rfl) (by rfl)).2 (by decide)

/-- Claim C3 (status: confirmed). Once `claim_winnings` has succeeded for a
(user, pool) pair, the receipt write is the first durable effect of that
call (before any transfer — `tr.head?`), and every subsequent
`claim_winnings` call for the same pair, in any later state reached by any
sequence of successful operations (with the contract not paused, so the call
reaches the claim logic), returns the `AlreadyClaimed` denial with the
storage — in particular every balance — completely unchanged and an empty
effect list (no transfer attempted). -/
theorem C3_no_double_claim :
    ∀ (e : Env) (u pid : Nat) (s s1 : Storage) (r : Int) (tr : List Effect),
      Reachable s →
      claim_winnings e u pid s = (.ok r, s1, tr) →
      tr.head? = some (.setClaimed u pid) ∧
      ∀ s2, Relation.ReflTransGen Step s1 s2 →
        ∀ e', s2.paused.getD false = false →
          claim_winnings e' u pid s2 = (.err .AlreadyClaimed, s2, []) := by
  intro e u pid s s1 r tr hr h
  obtain ⟨-, p, hp, hna, -, hpl, -, -, -, -, -, -, -, -, -, -, -, hclm, hhd⟩ :=
    claim_winnings_ok h
  refine ⟨hhd, ?_⟩
  have hInv1 : Inv s1 := inv_step (reachable_inv hr) (Step.claimStep e u pid r s s1 tr h)
  have hp1 : s1.pools pid = some p := by rw [hpl]; exact hp
  have hcl1 : (s1.hasClaimed u pid).isSome = true := by
    rw [hclm, updMap2_same]
    rfl
  intro s2 hrtg
  have key : Inv s2 ∧ s2.pools pid = some p ∧ (s2.hasClaimed u pid).isSome = true := by
    induction hrtg with
    | refl => exact ⟨hInv1, hp1, hcl1⟩
    | tail hsub hstep ih =>
      exact ⟨inv_step ih.1 hstep, pool_frozen ih.1 hstep ih.2.1 hna,
        hasClaimed_mono hstep ih.2.2⟩
  obtain ⟨-, hp2, hcl2⟩ := key
  intro e' hpause
  unfold claim_winnings
  simp only [hpause, Bool.false_eq_true, if_false, hp2]
  rw [if_neg hna, if_pos hcl2]

set_option maxRecDepth 16384 in
/-- Witness for C3: user 4's successful refund claim on the canceled pool 0
(state `chain5`) writes the receipt first; re-claiming immediately
afterwards (in `chain6`) is denied with `AlreadyClaimed`, leaving the state
untouched and performing no transfer. -/
theorem C3_witness :
    claim_winnings adminEnv 4 0 chain6 = (.err .AlreadyClaimed, chain6, []) :=
  (C3_no_double_claim adminEnv 4 0 chain5 chain6 100
      [.setClaimed 4 0, .transferE 9 contractAddr 4 100]
      chain5_reachable (by rfl)).2
    chain6 Relation.ReflTransGen.refl adminEnv (by rfl)

set_option maxRecDepth 16384 in
/-- Witness for C6: user 4 staked 100 before pool 0 was canceled; the first
claim in state `chain5` refunds exactly 100. -/
theorem C6_witness :
    claim_winnings adminEnv 4 0 chain5 =
      (.ok 100, transfer (claim_mark 4 0 chain5) chainPool5.token contractAddr 4 100,
        [.setClaimed 4 0, .transferE chainPool5.token contractAddr 4 100]) :=
  C6_canceled_full_refund adminEnv 4 0 chain5 chainPool5 100 0
    (by rfl) (by rfl) (by rfl) (by rfl) (by rfl)

/-- A second active pool fixture for the C10 witness. -/
def c10Pool : Pool :=
  { end_time := 5000, resolved := false, canceled := false, state := .Active
    outcome := 0, token := 9, total_stake := 0
    description := "", metadata_url := ""
    options_count := 2, initial_liquidity := 0, creator := 1, category := 0 }

/-- Storage holding the active `c10Pool` for the C10 witness. -/
def c10s0 : Storage :=
  { initialStorage (fun _ _ => 1000) with
    config := some ⟨0, 7, 8, 0⟩
    poolIdCounter := some 1
    pools := fun pid => if pid = 0 then some c10Pool else none }

/-- State after user 4 stakes 100 on outcome 0. -/
def c10s1 : Storage := (place_prediction adminEnv 4 0 100 0 c10s0).2

/-- State after user 4 re-stakes 70 on outcome 1 of the same pool. -/
def c10s2 : Storage := (place_prediction adminEnv 4 0 70 1 c10s1).2

set_option maxRecDepth 16384 in
/-- Witness for C10: user 4 stakes twice on pool 0; afterwards the index
holds two slots for pool 0 and both returned entries report only the second
stake (70 on outcome 1). -/
theorem C10_witness :
    c10s2.userPredCount 4 = some 2 ∧
    c10s2.userPredIndex 4 0 = some 0 ∧
    c10s2.userPredIndex 4 1 = some 0 ∧
    c10s2.predictions 4 0 = some ⟨70, 1⟩ ∧
    ∃ p2, c10s2.pools 0 = some p2 ∧
      get_user_predictions 4 0 2 c10s2 =
        .ok [⟨0, 70, 1, p2.end_time, p2.state, p2.outcome⟩,
             ⟨0, 70, 1, p2.end_time, p2.state, p2.outcome⟩] :=
  C10_restake_appends_and_overwrites adminEnv adminEnv 4 0 100 70 0 1 c10s0 c10s1 c10s2
    (by rfl) (by rfl) (by rfl)

end Predifi
